import Mathlib

/-!
# docker-volume-sshfs: the volume registry and its mount orchestration

A shallow embedding of `plugin.go` (the `sshfsDriver` type with `newDockerDriver`,
`saveState`, `Create`, `Remove`, `Mount`, `Unmount`, `mountVolume`, `unmountVolume`)
together with the parts of the Go standard library those functions call
(`path/filepath.Join`, `crypto/md5.Sum`, `fmt.Sprintf("%x", ..)`, `encoding/json`).

Conventions of the embedding.

* Go strings are Lean strings (sequences of Unicode scalar values, hence valid UTF-8).
* The `connections` field has Go type `int`; it changes by one per call, so it is an
  unbounded `Int` here (wrap-around would need 2^63 calls).
* `map[string]*DockerVolume` is `none` for the nil map and otherwise an association list
  read through `List.lookup`; a value is `Option DockerVolume`, where `none` is the nil
  pointer.
* Every call into the operating system is recorded as an `Effect`; what the operating
  system answers is given per call by an `Env`.
* `Create`, `Remove`, `Mount` and `Unmount` hold the write lock of the driver for their
  whole body, so a method is one atomic step and an execution is a sequence of calls.
* Logging is not part of the embedding.
-/

namespace Sshfs

/-! ## `path/filepath` (Unix) -/

/-- The elements of a path between its separators, as `strings.Split(path, "/")`. -/
def splitSlash : List Char → List (List Char)
  | [] => [[]]
  | c :: cs =>
    if c = '/' then [] :: splitSlash cs
    else
      match splitSlash cs with
      | [] => [[c]]
      | x :: xs => (c :: x) :: xs

/-- One iteration of the loop of `filepath.Clean` over a path element. The output buffer
is kept as the stack of elements written so far, last element first. An empty element
and `.` are dropped; `..` removes the last element when that one is a real element,
is appended when the path is not rooted, and is dropped at the root; any other element
is appended. -/
def cleanStep (rooted : Bool) (stack : List (List Char)) (e : List Char) :
    List (List Char) :=
  if e = [] ∨ e = ['.'] then stack
  else if e = ['.', '.'] then
    match stack with
    | [] => if rooted then [] else [e]
    | top :: rest =>
      if top = ['.', '.'] then (if rooted then stack else e :: stack) else rest
  else e :: stack

/-- Elements joined by the separator. -/
def joinSlash : List (List Char) → List Char
  | [] => []
  | [x] => x
  | x :: y :: rest => x ++ '/' :: joinSlash (y :: rest)

/-- The text of the output buffer of `filepath.Clean`: a leading separator for a rooted
path, the elements joined by separators, and `.` when nothing was written. -/
def renderPath (rooted : Bool) (stack : List (List Char)) : List Char :=
  if rooted then '/' :: joinSlash stack.reverse
  else if stack = [] then ['.'] else joinSlash stack.reverse

/-- Whether the path starts with a separator. -/
def isRooted (path : List Char) : Bool := path.head? = some '/'

/-- The output buffer of `filepath.Clean` after its loop, as a stack of elements. -/
def cleanStack (path : List Char) : List (List Char) :=
  (splitSlash path).foldl (cleanStep (isRooted path)) []

/-- The function `filepath.Clean` on a list of characters. -/
def cleanChars (path : List Char) : List Char :=
  renderPath (isRooted path) (cleanStack path)

/-- A stack that the loop of `filepath.Clean` can have built: no element holds a
separator and every element is one the loop appends on top of the elements below it. -/
def GoodStack (rooted : Bool) : List (List Char) → Prop
  | [] => True
  | e :: s => '/' ∉ e ∧ cleanStep rooted s e = e :: s ∧ GoodStack rooted s

/-- The function `filepath.Clean`. -/
def filepathClean (path : String) : String := ⟨cleanChars path.data⟩

/-- The function `strings.Join(elems, "/")`. -/
def joinWithSlash : List String → List Char
  | [] => []
  | [x] => x.data
  | x :: y :: rest => x.data ++ '/' :: joinWithSlash (y :: rest)

/-- The function `filepath.Join`: leading empty elements are ignored, the remaining ones
are joined by separators and the result is cleaned; with no non-empty element the result
is the empty string. -/
def filepathJoin : List String → String
  | [] => ""
  | e :: es =>
    if e = "" then filepathJoin es else ⟨cleanChars (joinWithSlash (e :: es))⟩

/-! ## `crypto/md5` and `%x` -/

/-- The UTF-8 encoding of a character, as bytes. -/
def utf8Char (c : Char) : List Nat :=
  let n := c.toNat
  if n < 0x80 then [n]
  else if n < 0x800 then [0xC0 + n / 0x40, 0x80 + n % 0x40]
  else if n < 0x10000 then [0xE0 + n / 0x1000, 0x80 + n / 0x40 % 0x40, 0x80 + n % 0x40]
  else [0xF0 + n / 0x40000, 0x80 + n / 0x1000 % 0x40, 0x80 + n / 0x40 % 0x40,
        0x80 + n % 0x40]

/-- The conversion `[]byte(s)`. -/
def utf8Bytes (s : String) : List Nat := s.data.flatMap utf8Char

/-- Per-round shift amounts of MD5. -/
def md5Shift : List Nat :=
  [7, 12, 17, 22, 7, 12, 17, 22, 7, 12, 17, 22, 7, 12, 17, 22,
   5, 9, 14, 20, 5, 9, 14, 20, 5, 9, 14, 20, 5, 9, 14, 20,
   4, 11, 16, 23, 4, 11, 16, 23, 4, 11, 16, 23, 4, 11, 16, 23,
   6, 10, 15, 21, 6, 10, 15, 21, 6, 10, 15, 21, 6, 10, 15, 21]

/-- Per-round additive constants of MD5. -/
def md5Const : List Nat :=
  [0xd76aa478, 0xe8c7b756, 0x242070db, 0xc1bdceee,
   0xf57c0faf, 0x4787c62a, 0xa8304613, 0xfd469501,
   0x698098d8, 0x8b44f7af, 0xffff5bb1, 0x895cd7be,
   0x6b901122, 0xfd987193, 0xa679438e, 0x49b40821,
   0xf61e2562, 0xc040b340, 0x265e5a51, 0xe9b6c7aa,
   0xd62f105d, 0x02441453, 0xd8a1e681, 0xe7d3fbc8,
   0x21e1cde6, 0xc33707d6, 0xf4d50d87, 0x455a14ed,
   0xa9e3e905, 0xfcefa3f8, 0x676f02d9, 0x8d2a4c8a,
   0xfffa3942, 0x8771f681, 0x6d9d6122, 0xfde5380c,
   0xa4beea44, 0x4bdecfa9, 0xf6bb4b60, 0xbebfbc70,
   0x289b7ec6, 0xeaa127fa, 0xd4ef3085, 0x04881d05,
   0xd9d4d039, 0xe6db99e5, 0x1fa27cf8, 0xc4ac5665,
   0xf4292244, 0x432aff97, 0xab9423a7, 0xfc93a039,
   0x655b59c3, 0x8f0ccc92, 0xffeff47d, 0x85845dd1,
   0x6fa87e4f, 0xfe2ce6e0, 0xa3014314, 0x4e0811a1,
   0xf7537e82, 0xbd3af235, 0x2ad7d2bb, 0xeb86d391]

/-- Left rotation of a 32-bit word. -/
def rotl32 (x c : Nat) : Nat := ((x <<< c) ||| (x >>> (32 - c))) % 2 ^ 32

/-- Bitwise complement of a 32-bit word. -/
def not32 (x : Nat) : Nat := 0xffffffff - x % 2 ^ 32

/-- The four 32-bit registers of MD5. -/
structure Md5State where
  a : Nat
  b : Nat
  c : Nat
  d : Nat
  deriving DecidableEq, Repr

/-- Round `i` of the MD5 compression function on the message words `m`. -/
def md5Round (m : List Nat) (s : Md5State) (i : Nat) : Md5State :=
  let f :=
    if i < 16 then (s.b &&& s.c) ||| (not32 s.b &&& s.d)
    else if i < 32 then (s.d &&& s.b) ||| (not32 s.d &&& s.c)
    else if i < 48 then s.b ^^^ s.c ^^^ s.d
    else s.c ^^^ (s.b ||| not32 s.d)
  let g :=
    if i < 16 then i
    else if i < 32 then (5 * i + 1) % 16
    else if i < 48 then (3 * i + 5) % 16
    else (7 * i) % 16
  let t := (f + s.a + md5Const.getD i 0 + m.getD g 0) % 2 ^ 32
  { a := s.d, d := s.c, c := s.b, b := (s.b + rotl32 t (md5Shift.getD i 0)) % 2 ^ 32 }

/-- A little-endian 32-bit word from four bytes. -/
def leWord (bs : List Nat) : Nat :=
  bs.getD 0 0 + bs.getD 1 0 * 2 ^ 8 + bs.getD 2 0 * 2 ^ 16 + bs.getD 3 0 * 2 ^ 24

/-- The sixteen message words of a 64-byte block. -/
def blockWords (block : List Nat) : List Nat :=
  (List.range 16).map (fun j => leWord ((block.drop (4 * j)).take 4))

/-- The MD5 compression function on one 64-byte block. -/
def md5Block (s : Md5State) (block : List Nat) : Md5State :=
  let r := (List.range 64).foldl (md5Round (blockWords block)) s
  { a := (s.a + r.a) % 2 ^ 32, b := (s.b + r.b) % 2 ^ 32,
    c := (s.c + r.c) % 2 ^ 32, d := (s.d + r.d) % 2 ^ 32 }

/-- The compression function over the first `n` blocks of `bytes`. -/
def md5Blocks : Nat → Md5State → List Nat → Md5State
  | 0, s, _ => s
  | n + 1, s, bytes => md5Blocks n (md5Block s (bytes.take 64)) (bytes.drop 64)

/-- The little-endian bytes of a word, `n` of them. -/
def leBytes : Nat → Nat → List Nat
  | 0, _ => []
  | n + 1, w => w % 256 :: leBytes n (w / 256)

/-- The MD5 padding: the byte `0x80`, zero bytes up to 56 modulo 64, and the length of
the message in bits as a little-endian 64-bit word. -/
def md5Pad (msg : List Nat) : List Nat :=
  msg ++ 0x80 :: List.replicate ((119 - msg.length % 64) % 64) 0 ++
    leBytes 8 (msg.length * 8 % 2 ^ 64)

/-- The function `md5.Sum`: the sixteen bytes of the digest. -/
def md5Sum (msg : List Nat) : List Nat :=
  let padded := md5Pad msg
  let s := md5Blocks (padded.length / 64)
    { a := 0x67452301, b := 0xefcdab89, c := 0x98badcfe, d := 0x10325476 } padded
  leBytes 4 s.a ++ leBytes 4 s.b ++ leBytes 4 s.c ++ leBytes 4 s.d

/-- A lowercase hexadecimal digit. -/
def hexDigit (n : Nat) : Char :=
  match n with
  | 0 => '0' | 1 => '1' | 2 => '2' | 3 => '3' | 4 => '4' | 5 => '5' | 6 => '6'
  | 7 => '7' | 8 => '8' | 9 => '9' | 10 => 'a' | 11 => 'b' | 12 => 'c' | 13 => 'd'
  | 14 => 'e' | _ => 'f'

/-- The formatting `fmt.Sprintf("%x", bytes)` of a byte array: two lowercase hexadecimal
digits per byte. -/
def sprintfHex (bytes : List Nat) : String :=
  ⟨bytes.flatMap (fun b => [hexDigit (b / 16 % 16), hexDigit (b % 16)])⟩

/-! ## Data model -/

/-- The struct `DockerVolume`. The field `connections` is not exported. -/
structure DockerVolume where
  Password : String
  Sshcmd : String
  Port : String
  Options : List String
  Mountpoint : String
  connections : Int
  deriving DecidableEq, Repr

/-- The zero value `DockerVolume{}`. -/
def DockerVolume.zero : DockerVolume :=
  { Password := "", Sshcmd := "", Port := "", Options := [], Mountpoint := "",
    connections := 0 }

/-- The entries of a non-nil `map[string]*DockerVolume`. The value `none` is the nil
pointer. Every pointer stored by `Create` or by the decoder is freshly allocated, so no
two names share a record. -/
abbrev Entries := List (String × Option DockerVolume)

/-- The type `map[string]*DockerVolume`: `none` is the nil map. -/
abbrev Volumes := Option Entries

/-- The lookup `v, ok := m[k]`: `none` when `ok` is false, as it is for every key of the
nil map. -/
def mapGet (k : String) : Volumes → Option (Option DockerVolume)
  | none => none
  | some entries => entries.lookup k

/-- The assignment `m[k] = v` on the entries of a non-nil map. -/
def mapSet (k : String) (v : Option DockerVolume) : Entries → Entries
  | [] => [(k, v)]
  | (k', v') :: rest => if k' = k then (k, v) :: rest else (k', v') :: mapSet k v rest

/-- A write through the pointer stored under `k`, after which the record is `v`. -/
def setRecord (k : String) (v : DockerVolume) : Volumes → Volumes
  | none => none
  | some entries => some (mapSet k (some v) entries)

/-- The statement `delete(m, k)` on the entries of a non-nil map. -/
def deleteEntry (k : String) : Entries → Entries
  | [] => []
  | (k', v') :: rest =>
    if k' = k then deleteEntry k rest else (k', v') :: deleteEntry k rest

/-- The statement `delete(m, k)`; on the nil map it does nothing. -/
def mapDelete (k : String) : Volumes → Volumes
  | none => none
  | some entries => some (deleteEntry k entries)

/-- The struct `sshfsDriver` (its lock apart). -/
structure sshfsDriver where
  root : String
  statePath : String
  volumes : Volumes
  deriving DecidableEq, Repr

/-! ## `encoding/json` -/

/-- A JSON document. A number is kept as its text. -/
inductive JSON where
  | null
  | bool (b : Bool)
  | num (text : String)
  | str (s : String)
  | arr (items : List JSON)
  | obj (members : List (String × JSON))

/-- The encoding of a `[]string`: the nil slice is `null`. An empty list stands for the
nil slice, which is what `Create` leaves when no option is appended. -/
def marshalOptions : List String → JSON
  | [] => .null
  | xs => .arr (xs.map JSON.str)

/-- The encoding of a `DockerVolume`: one member per exported field, in the order of
declaration. The field `connections` is not exported and is left out. -/
def marshalVolume (v : DockerVolume) : JSON :=
  .obj [("Password", .str v.Password), ("Sshcmd", .str v.Sshcmd), ("Port", .str v.Port),
        ("Options", marshalOptions v.Options), ("Mountpoint", .str v.Mountpoint)]

/-- The encoding of a `*DockerVolume`: the nil pointer is `null`. -/
def marshalPtr : Option DockerVolume → JSON
  | none => .null
  | some v => marshalVolume v

/-- The keys of a map, each once, in increasing order. -/
def sortedKeys (m : Entries) : List String :=
  ((m.map Prod.fst).dedup).insertionSort (fun a b => a ≤ b)

/-- The function `json.Marshal` on a `map[string]*DockerVolume`: `null` for the nil map,
otherwise an object with one member per key, the keys sorted. It cannot fail on this
type. -/
def marshalVolumes : Volumes → JSON
  | none => .null
  | some m => .obj ((sortedKeys m).map (fun k => (k, marshalPtr (m.lookup k).join)))

/-- The errors the driver returns, one constructor per `logError` call. -/
inductive Error where
  /-- The message `failed to read state: %w`. -/
  | readState (cause : String)
  /-- The message `failed to unmarshal state: %w`. -/
  | unmarshalState (cause : String)
  /-- The message `failed to save state: %w`. -/
  | saveState (cause : String)
  /-- The message `'sshcmd' option required`. -/
  | sshcmdRequired
  /-- The message `volume %s not found`. -/
  | notFound (name : String)
  /-- The message `volume %s is currently used by a container`. -/
  | inUse (name : String)
  /-- The message of an error of the operating system, `logError(err.Error())`. -/
  | os (cause : String)
  /-- The message `%v already exist and it's not a directory`. -/
  | notADirectory (path : String)
  /-- The message `sshfs command execute failed: %v (%s) cmd: [%s]`. -/
  | sshfsFailed (cause : String) (argv : List String)
  deriving DecidableEq, Repr

/-- The exported fields of `DockerVolume`. -/
inductive Field where
  | Password | Sshcmd | Port | Options | Mountpoint
  deriving DecidableEq, Repr

/-- Case folding of member names as far as it can reach an ASCII letter: a lowercase
ASCII letter folds to its uppercase letter, U+017F to `S` and U+212A to `K`. -/
def foldRune (c : Char) : Char :=
  if 97 ≤ c.toNat ∧ c.toNat ≤ 122 then Char.ofNat (c.toNat - 32)
  else if c.toNat = 0x17F then 'S'
  else if c.toNat = 0x212A then 'K'
  else c

/-- The field a member name selects: names are matched up to case folding. -/
def fieldOf (key : String) : Option Field :=
  let folded := key.data.map foldRune
  if folded = "PASSWORD".data then some .Password
  else if folded = "SSHCMD".data then some .Sshcmd
  else if folded = "PORT".data then some .Port
  else if folded = "OPTIONS".data then some .Options
  else if folded = "MOUNTPOINT".data then some .Mountpoint
  else none

/-- Decoding into a `string`: a JSON string is stored, `null` leaves the value as it
is, anything else is a type error. -/
def decodeString (cur : String) : JSON → Except String String
  | .str s => .ok s
  | .null => .ok cur
  | _ => .error "json: cannot unmarshal into Go value of type string"

/-- Decoding the elements of an array into a `[]string`. -/
def decodeItems : List JSON → Except String (List String)
  | [] => .ok []
  | j :: js =>
    match decodeString "" j, decodeItems js with
    | .ok s, .ok ss => .ok (s :: ss)
    | .error e, _ => .error e
    | _, .error e => .error e

/-- Decoding into a `[]string`: an array is decoded element by element, `null` gives the
nil slice, anything else is a type error. (Under a repeated `Options` member Go decodes
into the slice already stored; here each array is decoded on its own, which differs only
for `null` elements of a repeated member.) -/
def decodeOptions : JSON → Except String (List String)
  | .arr items => decodeItems items
  | .null => .ok []
  | _ => .error "json: cannot unmarshal into Go value of type []string"

/-- Decoding the members of an object into a `DockerVolume`, in document order: a member
that names an exported field is decoded into it, any other member is skipped. The field
`connections` is never written. -/
def decodeMembers (v : DockerVolume) : List (String × JSON) → Except String DockerVolume
  | [] => .ok v
  | (key, j) :: rest =>
    match fieldOf key with
    | none => decodeMembers v rest
    | some .Password =>
      match decodeString v.Password j with
      | .ok s => decodeMembers { v with Password := s } rest
      | .error e => .error e
    | some .Sshcmd =>
      match decodeString v.Sshcmd j with
      | .ok s => decodeMembers { v with Sshcmd := s } rest
      | .error e => .error e
    | some .Port =>
      match decodeString v.Port j with
      | .ok s => decodeMembers { v with Port := s } rest
      | .error e => .error e
    | some .Options =>
      match decodeOptions j with
      | .ok xs => decodeMembers { v with Options := xs } rest
      | .error e => .error e
    | some .Mountpoint =>
      match decodeString v.Mountpoint j with
      | .ok s => decodeMembers { v with Mountpoint := s } rest
      | .error e => .error e

/-- Decoding into a `*DockerVolume`: `null` gives the nil pointer, an object a new
record, anything else is a type error. -/
def decodePtr : JSON → Except String (Option DockerVolume)
  | .null => .ok none
  | .obj members =>
    match decodeMembers DockerVolume.zero members with
    | .ok v => .ok (some v)
    | .error e => .error e
  | _ => .error "json: cannot unmarshal into Go value of type main.DockerVolume"

/-- Decoding the members of an object into a map, in document order. -/
def decodeEntries (m : Entries) : List (String × JSON) → Except String Entries
  | [] => .ok m
  | (key, j) :: rest =>
    match decodePtr j with
    | .ok v => decodeEntries (mapSet key v m) rest
    | .error e => .error e

/-- The function `json.Unmarshal(data, &m)` for a `map[string]*DockerVolume`: `null`
sets the map to nil, an object adds its members to the map (a new one when it is nil),
anything else is a type error. The result after an error is not used by the driver. -/
def unmarshalVolumes (m : Volumes) : JSON → Except String Volumes
  | .null => .ok none
  | .obj members =>
    match decodeEntries (m.getD []) members with
    | .ok entries => .ok (some entries)
    | .error e => .error e
  | _ => .error "json: cannot unmarshal into Go value of type map[string]*main.DockerVolume"

/-! ## The operating system -/

/-- A call into the operating system, with its arguments. -/
inductive Effect where
  /-- The call `os.Lstat(path)`. -/
  | lstat (path : String)
  /-- The call `os.MkdirAll(path, perm)`. -/
  | mkdirAll (path : String) (perm : Nat)
  /-- The call `os.RemoveAll(path)`. -/
  | removeAll (path : String)
  /-- The call `os.WriteFile(path, data, perm)`; the data is the document it holds. -/
  | writeFile (path : String) (data : JSON) (perm : Nat)
  /-- Running a command built by `exec.Command`: the program, `cmd.Args` (the program
  name first) and what is fed to standard input. -/
  | exec (program : String) (argv : List String) (stdin : Option String)

/-- What `os.Lstat` answers. -/
inductive LstatResult where
  /-- A file info with `IsDir()` true, no error. -/
  | isDir
  /-- A file info with `IsDir()` false, no error. -/
  | notDir
  /-- An error for which `os.IsNotExist` holds. -/
  | notExist
  /-- Any other error. -/
  | failed (cause : String)
  deriving DecidableEq, Repr

/-- What the operating system answers during one call of a driver method. Each method
makes each kind of call at most once. For a call that returns only an error, `none` is
success and `some cause` the error. -/
structure Env where
  lstat : LstatResult
  mkdirAll : Option String
  removeAll : Option String
  writeFile : Option String
  /-- The exit of the `sshfs` command (`cmd.CombinedOutput`). -/
  sshfs : Option String
  /-- The exit of the `sh -c "umount .."` command (`cmd.Run`). -/
  umount : Option String
  deriving DecidableEq, Repr

/-- What a method hands back: a value with a nil error, an error, or a panic (a nil
pointer dereference, or an assignment to an entry of the nil map). -/
inductive Reply (α : Type) where
  | ok (value : α)
  | error (e : Error)
  | panicked
  deriving DecidableEq, Repr

/-- The result of running a driver method: the driver afterwards, the calls into the
operating system in the order they were made, and what the method handed back. -/
structure Outcome (α : Type) where
  driver : sshfsDriver
  effects : List Effect
  reply : Reply α

/-- What `os.ReadFile` answers for the state file. -/
inductive ReadFileResult where
  /-- An error for which `os.IsNotExist` holds. -/
  | notExist
  /-- Any other error. -/
  | failed (cause : String)
  /-- Bytes that are not a JSON document. -/
  | malformed
  /-- Bytes that are the JSON document `doc`. -/
  | data (doc : JSON)

/-! ## The driver -/

/-- The function `newDockerDriver`. -/
def newDockerDriver (root : String) (file : ReadFileResult) : Except Error sshfsDriver :=
  let d : sshfsDriver :=
    { root := filepathJoin [root, "volumes"],
      statePath := filepathJoin [root, "state", "sshfs-state.json"],
      volumes := some [] }
  match file with
  | .notExist => .ok d
  | .failed cause => .error (.readState cause)
  | .malformed => .error (.unmarshalState "invalid character")
  | .data doc =>
    match unmarshalVolumes d.volumes doc with
    | .error cause => .error (.unmarshalState cause)
    | .ok m => .ok { d with volumes := m }

/-- The method `saveState`. -/
def saveState (env : Env) (d : sshfsDriver) : Outcome Unit :=
  let data := marshalVolumes d.volumes
  match env.writeFile with
  | some cause =>
    { driver := d, effects := [.writeFile d.statePath data 0o644],
      reply := .error (.saveState cause) }
  | none => { driver := d, effects := [.writeFile d.statePath data 0o644], reply := .ok () }

/-- The body of the loop of `Create` over the options. -/
def parseOption (v : DockerVolume) (key val : String) : DockerVolume :=
  if key = "sshcmd" then { v with Sshcmd := val }
  else if key = "password" then { v with Password := val }
  else if key = "port" then { v with Port := val }
  else if val ≠ "" then { v with Options := v.Options ++ [key ++ "=" ++ val] }
  else { v with Options := v.Options ++ [key] }

/-- The loop of `Create` over the options, from `v := &DockerVolume{}`. The options are
given in the order in which the `range` loop visits the map `r.Options`. -/
def parseOptions (options : List (String × String)) : DockerVolume :=
  options.foldl (fun v kv => parseOption v kv.1 kv.2) DockerVolume.zero

/-- The method `Create`. The options are given in the order in which the `range` loop
visits the map `r.Options`. The assignment `d.volumes[r.Name] = v` panics on the nil
map. -/
def Create (env : Env) (name : String) (options : List (String × String))
    (d : sshfsDriver) : Outcome Unit :=
  let v := parseOptions options
  if v.Sshcmd = "" then { driver := d, effects := [], reply := .error .sshcmdRequired }
  else
    let v := { v with
      Mountpoint := filepathJoin [d.root, sprintfHex (md5Sum (utf8Bytes v.Sshcmd))] }
    match d.volumes with
    | none => { driver := d, effects := [], reply := .panicked }
    | some entries => saveState env { d with volumes := some (mapSet name (some v) entries) }

/-- The method `Remove`. -/
def Remove (env : Env) (name : String) (d : sshfsDriver) : Outcome Unit :=
  match mapGet name d.volumes with
  | none => { driver := d, effects := [], reply := .error (.notFound name) }
  | some none => { driver := d, effects := [], reply := .panicked }
  | some (some v) =>
    if v.connections ≠ 0 then { driver := d, effects := [], reply := .error (.inUse name) }
    else
      match env.removeAll with
      | some cause =>
        { driver := d, effects := [.removeAll v.Mountpoint], reply := .error (.os cause) }
      | none =>
        let r := saveState env { d with volumes := mapDelete name d.volumes }
        { r with effects := .removeAll v.Mountpoint :: r.effects }

/-- The command `mountVolume` builds: `cmd.Args` and `cmd.Stdin`. -/
def mountCommand (v : DockerVolume) : List String × Option String :=
  let args := ["sshfs", "-oStrictHostKeyChecking=no", v.Sshcmd, v.Mountpoint]
  let args := if v.Port ≠ "" then args ++ ["-p", v.Port] else args
  let args :=
    if v.Password ≠ "" then args ++ ["-o", "workaround=rename", "-o", "password_stdin"]
    else args
  let stdin := if v.Password ≠ "" then some v.Password else none
  let args := v.Options.foldl (fun args option => args ++ ["-o", option]) args
  (args, stdin)

/-- The method `mountVolume`: the calls it makes and the error it returns. -/
def mountVolume (env : Env) (v : DockerVolume) : List Effect × Option Error :=
  let cmd := mountCommand v
  match env.sshfs with
  | some cause => ([.exec "sshfs" cmd.1 cmd.2], some (.sshfsFailed cause cmd.1))
  | none => ([.exec "sshfs" cmd.1 cmd.2], none)

/-- The method `unmountVolume`: the calls it makes and the error it returns. -/
def unmountVolume (env : Env) (target : String) : List Effect × Option Error :=
  let cmd := "umount " ++ target
  match env.umount with
  | some cause => ([.exec "sh" ["sh", "-c", cmd] none], some (.os cause))
  | none => ([.exec "sh" ["sh", "-c", cmd] none], none)

/-- The end of `Mount`: `v.connections++` and the reply with the mount point. -/
def mountDone (name : String) (v : DockerVolume) (d : sshfsDriver)
    (effects : List Effect) : Outcome String :=
  { driver := { d with
      volumes := setRecord name { v with connections := v.connections + 1 } d.volumes },
    effects := effects, reply := .ok v.Mountpoint }

/-- The method `Mount`. -/
def Mount (env : Env) (name : String) (d : sshfsDriver) : Outcome String :=
  match mapGet name d.volumes with
  | none => { driver := d, effects := [], reply := .error (.notFound name) }
  | some none => { driver := d, effects := [], reply := .panicked }
  | some (some v) =>
    if v.connections = 0 then
      let checked : List Effect × Option Error :=
        match env.lstat with
        | .notExist =>
          match env.mkdirAll with
          | some cause =>
            ([.lstat v.Mountpoint, .mkdirAll v.Mountpoint 0o755], some (.os cause))
          | none => ([.lstat v.Mountpoint, .mkdirAll v.Mountpoint 0o755], none)
        | .failed cause => ([.lstat v.Mountpoint], some (.os cause))
        | .notDir => ([.lstat v.Mountpoint], some (.notADirectory v.Mountpoint))
        | .isDir => ([.lstat v.Mountpoint], none)
      match checked.2 with
      | some e => { driver := d, effects := checked.1, reply := .error e }
      | none =>
        let mounted := mountVolume env v
        match mounted.2 with
        | some e => { driver := d, effects := checked.1 ++ mounted.1, reply := .error e }
        | none => mountDone name v d (checked.1 ++ mounted.1)
    else mountDone name v d []

/-- The method `Unmount`. -/
def Unmount (env : Env) (name : String) (d : sshfsDriver) : Outcome Unit :=
  match mapGet name d.volumes with
  | none => { driver := d, effects := [], reply := .error (.notFound name) }
  | some none => { driver := d, effects := [], reply := .panicked }
  | some (some v) =>
    let v := { v with connections := v.connections - 1 }
    let d := { d with volumes := setRecord name v d.volumes }
    if v.connections ≤ 0 then
      let unmounted := unmountVolume env v.Mountpoint
      match unmounted.2 with
      | some e => { driver := d, effects := unmounted.1, reply := .error e }
      | none =>
        { driver := { d with
            volumes := setRecord name { v with connections := 0 } d.volumes },
          effects := unmounted.1, reply := .ok () }
    else { driver := d, effects := [], reply := .ok () }

/-! ## Sequences of calls -/

/-- A call of one of the four methods that change the registry. -/
inductive Call where
  | create (name : String) (options : List (String × String))
  | remove (name : String)
  | mount (name : String)
  | unmount (name : String)

/-- The driver after one call, made while the operating system answers as `c.1`. -/
def step (d : sshfsDriver) (c : Env × Call) : sshfsDriver :=
  match c.2 with
  | .create name options => (Create c.1 name options d).driver
  | .remove name => (Remove c.1 name d).driver
  | .mount name => (Mount c.1 name d).driver
  | .unmount name => (Unmount c.1 name d).driver

/-- The driver after a sequence of calls. -/
def run (d : sshfsDriver) (calls : List (Env × Call)) : sshfsDriver := calls.foldl step d

/-- Consecutive `Mount` calls on one name, one per element of `envs`: the outcome of
each call, in order. -/
def mounts (name : String) : List Env → sshfsDriver → List (Outcome String)
  | [], _ => []
  | env :: envs, d => Mount env name d :: mounts name envs (Mount env name d).driver

/-- The driver after a list of outcomes, `d` when the list is empty. -/
def lastDriver (d : sshfsDriver) : List (Outcome String) → sshfsDriver
  | [] => d
  | r :: rs => lastDriver r.driver rs

/-- Whether an effect runs the program `sshfs`. -/
def Effect.isSshfs : Effect → Bool
  | .exec program _ _ => program = "sshfs"
  | _ => false

/-! ## Sample values -/

/-- An operating system in which every call succeeds and the mount point does not exist
yet. -/
def calmEnv : Env :=
  { lstat := .notExist, mkdirAll := none, removeAll := none, writeFile := none,
    sshfs := none, umount := none }

/-- An operating system in which the `umount` command fails. -/
def umountFailsEnv : Env := { calmEnv with umount := some "exit status 32" }

/-- The options of the sample volume. -/
def sampleOptions : List (String × String) :=
  [("sshcmd", "user@host:/path"), ("password", "secret"), ("port", "2222"),
   ("compression", "yes")]

/-- The record `Create` builds from `sampleOptions` under the root `/mnt/volumes`, with
`n` connections. -/
def sampleVolume (n : Int) : DockerVolume :=
  { Password := "secret", Sshcmd := "user@host:/path", Port := "2222",
    Options := ["compression=yes"],
    Mountpoint := "/mnt/volumes/a8b4e28bdb275bc0429253e408d3b6ac", connections := n }

/-- The driver of `main` with an empty registry. -/
def emptyDriver : sshfsDriver :=
  { root := "/mnt/volumes", statePath := "/mnt/state/sshfs-state.json",
    volumes := some [] }

/-- The driver `newDockerDriver("/mnt")` returns when the state file holds the JSON
value `null`: its registry is the nil map. -/
def nilDriver : sshfsDriver := { emptyDriver with volumes := none }

/-- Options whose remote target has characters of two, three and four bytes. -/
def wideOptions : List (String × String) := [("sshcmd", "héllo €𝄞")]

/-- The driver of `main` holding the sample volume under the name `x`, with `n`
connections. -/
def sampleDriver (n : Int) : sshfsDriver :=
  { emptyDriver with volumes := some [("x", some (sampleVolume n))] }

/-! ## The argument vector as the specification words it -/

/-- The arguments after the program name in the order the specification gives: the
remote target, the host-key-check flag, `-p` and the port when a port is set, the
credential flags when a credential is set, `-o` and the entry for each extra option in
list order, and the mount point as the last element. -/
def specMountArgs (v : DockerVolume) : List String :=
  [v.Sshcmd, "-oStrictHostKeyChecking=no"] ++
    (if v.Port ≠ "" then ["-p", v.Port] else []) ++
    (if v.Password ≠ "" then ["-o", "workaround=rename", "-o", "password_stdin"] else []) ++
    v.Options.flatMap (fun option => ["-o", option]) ++ [v.Mountpoint]

/-- The table of the test `TestClean` of `path/filepath` (Unix rows): a path and its
cleaned form. -/
def cleanTable : List (String × String) :=
  [("abc", "abc"), ("abc/def", "abc/def"), ("a/b/c", "a/b/c"), (".", "."), ("..", ".."),
   ("../..", "../.."), ("../../abc", "../../abc"), ("/abc", "/abc"), ("/", "/"),
   ("", "."),
   ("abc/", "abc"), ("abc/def/", "abc/def"), ("a/b/c/", "a/b/c"), ("./", "."),
   ("../", ".."), ("../../", "../.."), ("/abc/", "/abc"),
   ("abc//def//ghi", "abc/def/ghi"), ("abc//", "abc"),
   ("abc/./def", "abc/def"), ("/./abc/def", "/abc/def"), ("abc/.", "abc"),
   ("abc/def/ghi/../jkl", "abc/def/jkl"), ("abc/def/../ghi/../jkl", "abc/jkl"),
   ("abc/def/..", "abc"), ("abc/def/../..", "."), ("/abc/def/../..", "/"),
   ("abc/def/../../..", ".."), ("/abc/def/../../..", "/"),
   ("abc/def/../../../ghi/jkl/../../../mno", "../../mno"), ("/../abc", "/abc"),
   ("a/../b:/../../c", "../c"),
   ("abc/./../def", "def"), ("abc//./../def", "def"), ("abc/../../././../def", "../../def"),
   ("//abc", "/abc"), ("///abc", "/abc"), ("//abc//", "/abc")]

/-! ## The registry as a map -/

theorem lookup_mapSet_self (k : String) (v : Option DockerVolume) (m : Entries) :
    (mapSet k v m).lookup k = some v := by
  induction m with
  | nil => simp [mapSet, List.lookup]
  | cons kv rest ih =>
    obtain ⟨k', v'⟩ := kv
    by_cases h : k' = k
    · simp [mapSet, h, List.lookup]
    · have h' : (k == k') = false := by simpa using fun e => h e.symm
      simp [mapSet, h, List.lookup, h', ih]

theorem lookup_mapSet_ne (k k' : String) (v : Option DockerVolume) (m : Entries)
    (hne : k' ≠ k) : (mapSet k v m).lookup k' = m.lookup k' := by
  induction m with
  | nil =>
    have h' : (k' == k) = false := by simpa using hne
    simp [mapSet, List.lookup, h']
  | cons kv rest ih =>
    obtain ⟨k₁, v₁⟩ := kv
    by_cases h : k₁ = k
    · subst h
      have h' : (k' == k₁) = false := by simpa using hne
      simp [mapSet, List.lookup, h']
    · simp only [mapSet, h, if_false, List.lookup]
      cases (k' == k₁) <;> simp [ih]

theorem lookup_deleteEntry_self (k : String) (m : Entries) :
    (deleteEntry k m).lookup k = none := by
  induction m with
  | nil => simp [deleteEntry]
  | cons kv rest ih =>
    obtain ⟨k₁, v₁⟩ := kv
    by_cases h : k₁ = k
    · simpa [deleteEntry, h] using ih
    · have h' : (k == k₁) = false := by simpa using fun e => h e.symm
      simp [deleteEntry, h, List.lookup, h', ih]

theorem lookup_deleteEntry_ne (k k' : String) (m : Entries) (hne : k' ≠ k) :
    (deleteEntry k m).lookup k' = m.lookup k' := by
  induction m with
  | nil => simp [deleteEntry]
  | cons kv rest ih =>
    obtain ⟨k₁, v₁⟩ := kv
    by_cases h : k₁ = k
    · subst h
      have h' : (k' == k₁) = false := by simpa using hne
      simp [deleteEntry, List.lookup, h', ih]
    · simp only [deleteEntry, h, if_false, List.lookup]
      cases (k' == k₁) <;> simp [ih]

theorem mapGet_setRecord_self (k : String) (v : DockerVolume) (m : Volumes)
    (p : Option DockerVolume) (h : mapGet k m = some p) :
    mapGet k (setRecord k v m) = some (some v) := by
  cases m with
  | none => simp [mapGet] at h
  | some entries => simp [mapGet, setRecord, lookup_mapSet_self]

theorem mapSet_mapSet (k : String) (v w : Option DockerVolume) (m : Entries) :
    mapSet k v (mapSet k w m) = mapSet k v m := by
  induction m with
  | nil => simp [mapSet]
  | cons kv rest ih =>
    obtain ⟨k₁, v₁⟩ := kv
    by_cases h : k₁ = k
    · simp [mapSet, h]
    · simp [mapSet, h, ih]

theorem setRecord_setRecord (k : String) (v w : DockerVolume) (m : Volumes) :
    setRecord k v (setRecord k w m) = setRecord k v m := by
  cases m with
  | none => rfl
  | some entries => simp [setRecord, mapSet_mapSet]

theorem mapGet_setRecord_ne (k k' : String) (v : DockerVolume) (m : Volumes)
    (hne : k' ≠ k) : mapGet k' (setRecord k v m) = mapGet k' m := by
  cases m with
  | none => rfl
  | some entries => simp [mapGet, setRecord, lookup_mapSet_ne _ _ _ _ hne]

theorem mapGet_mapDelete_self (k : String) (m : Volumes) :
    mapGet k (mapDelete k m) = none := by
  cases m with
  | none => rfl
  | some entries => simp [mapGet, mapDelete, lookup_deleteEntry_self]

theorem mapGet_mapDelete_ne (k k' : String) (m : Volumes) (hne : k' ≠ k) :
    mapGet k' (mapDelete k m) = mapGet k' m := by
  cases m with
  | none => rfl
  | some entries => simp [mapGet, mapDelete, lookup_deleteEntry_ne _ _ _ hne]

/-! ## Remove -/

/-- C1. `Remove` on a name whose record has `connections > 0` returns the in-use error
and changes nothing: the driver afterwards is the driver before (so the record and every
other record are as they were), and no call into the operating system is made (neither
`os.RemoveAll` nor the write of the state file). -/
theorem remove_in_use_rejected (env : Env) (name : String) (d : sshfsDriver)
    (v : DockerVolume) (hv : mapGet name d.volumes = some (some v))
    (hc : 0 < v.connections) :
    (Remove env name d).reply = .error (.inUse name) ∧
      (Remove env name d).driver = d ∧
      (Remove env name d).effects = [] ∧
      mapGet name (Remove env name d).driver.volumes = some (some v) := by
  have hne : v.connections ≠ 0 := by omega
  simp [Remove, hv, hne]

theorem remove_in_use_rejected_witness :
    mapGet "x" (sampleDriver 2).volumes = some (some (sampleVolume 2)) ∧
      0 < (sampleVolume 2).connections ∧
      (Remove calmEnv "x" (sampleDriver 2)).reply = .error (.inUse "x") ∧
      (Remove calmEnv "x" (sampleDriver 2)).driver = sampleDriver 2 ∧
      (Remove calmEnv "x" (sampleDriver 2)).effects = [] ∧
      mapGet "x" (Remove calmEnv "x" (sampleDriver 2)).driver.volumes =
        some (some (sampleVolume 2)) :=
  ⟨by decide, by decide,
    remove_in_use_rejected calmEnv "x" (sampleDriver 2) (sampleVolume 2) (by decide)
      (by decide)⟩

/-! ## Unmount -/

/-- C4. For a record with `connections = n`: when `n > 1`, `Unmount` succeeds, leaves
`n - 1` and runs no command; when `n = 1`, it runs the `umount` command exactly once, on
the record's mount point, and when that command succeeds it returns success and leaves
`connections = 0`. In both cases the other records, the other fields of this record and
the other fields of the driver are unchanged. -/
theorem unmount_releases_last (env : Env) (name : String) (d : sshfsDriver)
    (v : DockerVolume) (hv : mapGet name d.volumes = some (some v)) :
    (1 < v.connections →
      (Unmount env name d).reply = .ok () ∧ (Unmount env name d).effects = [] ∧
      mapGet name (Unmount env name d).driver.volumes =
        some (some { v with connections := v.connections - 1 })) ∧
    (v.connections = 1 →
      (Unmount env name d).effects =
        [.exec "sh" ["sh", "-c", "umount " ++ v.Mountpoint] none] ∧
      (env.umount = none →
        (Unmount env name d).reply = .ok () ∧
        mapGet name (Unmount env name d).driver.volumes =
          some (some { v with connections := 0 }))) ∧
    (∀ other, other ≠ name →
      mapGet other (Unmount env name d).driver.volumes = mapGet other d.volumes) ∧
    (∃ n, mapGet name (Unmount env name d).driver.volumes =
      some (some { v with connections := n })) ∧
    (Unmount env name d).driver.root = d.root ∧
    (Unmount env name d).driver.statePath = d.statePath := by
  refine ⟨?_, ?_, ?_, ?_, ?_, ?_⟩
  · intro h
    have h' : ¬ v.connections - 1 ≤ 0 := by omega
    simp [Unmount, hv, h', setRecord_setRecord, mapGet_setRecord_self _ _ _ _ hv]
  · intro h
    cases hu : env.umount <;>
      simp [Unmount, hv, h, unmountVolume, hu, setRecord_setRecord, mapGet_setRecord_self _ _ _ _ hv]
  · intro other hne
    by_cases h : v.connections - 1 ≤ 0
    · cases hu : env.umount <;>
        simp [Unmount, hv, h, unmountVolume, hu, mapGet_setRecord_ne _ _ _ _ hne]
    · simp [Unmount, hv, h, mapGet_setRecord_ne _ _ _ _ hne]
  · by_cases h : v.connections - 1 ≤ 0
    · cases hu : env.umount
      · exact ⟨0, by simp [Unmount, hv, h, unmountVolume, hu, setRecord_setRecord, mapGet_setRecord_self _ _ _ _ hv]⟩
      · exact ⟨v.connections - 1,
          by simp [Unmount, hv, h, unmountVolume, hu, setRecord_setRecord, mapGet_setRecord_self _ _ _ _ hv]⟩
    · exact ⟨v.connections - 1, by simp [Unmount, hv, h, setRecord_setRecord, mapGet_setRecord_self _ _ _ _ hv]⟩
  · by_cases h : v.connections - 1 ≤ 0
    · cases hu : env.umount <;> simp [Unmount, hv, h, unmountVolume, hu]
    · simp [Unmount, hv, h]
  · by_cases h : v.connections - 1 ≤ 0
    · cases hu : env.umount <;> simp [Unmount, hv, h, unmountVolume, hu]
    · simp [Unmount, hv, h]

theorem unmount_releases_last_witness :
    mapGet "x" (sampleDriver 1).volumes = some (some (sampleVolume 1)) ∧
      (sampleVolume 1).connections = 1 ∧
      (Unmount calmEnv "x" (sampleDriver 1)).effects =
        [.exec "sh" ["sh", "-c", "umount " ++ (sampleVolume 1).Mountpoint] none] ∧
      (Unmount calmEnv "x" (sampleDriver 1)).reply = .ok () ∧
      mapGet "x" (Unmount calmEnv "x" (sampleDriver 1)).driver.volumes =
        some (some { sampleVolume 1 with connections := 0 }) :=
  have h := unmount_releases_last calmEnv "x" (sampleDriver 1) (sampleVolume 1)
    (by decide)
  ⟨by decide, by decide, (h.2.1 (by decide)).1, ((h.2.1 (by decide)).2 (by decide)).1,
    ((h.2.1 (by decide)).2 (by decide)).2⟩

/-! ## Failures of Mount and Unmount -/

/-- C5. Whenever `Mount` returns an error, the driver afterwards is the driver before,
so the `connections` of every volume is unchanged. Whenever `Unmount` on a record with
`connections = n` returns an error (for `n ≥ 1` as for any other `n`), the error is the
failure of the `umount` command and the record is left with `connections = n - 1`. -/
theorem failure_leaves_counts (env : Env) (name : String) (d : sshfsDriver) :
    (∀ e, (Mount env name d).reply = .error e → (Mount env name d).driver = d) ∧
    (∀ v e, mapGet name d.volumes = some (some v) →
      (Unmount env name d).reply = .error e →
      (∃ cause, env.umount = some cause ∧ e = .os cause) ∧
      mapGet name (Unmount env name d).driver.volumes =
        some (some { v with connections := v.connections - 1 })) := by
  constructor
  · intro e he
    unfold Mount at he ⊢
    cases hl : mapGet name d.volumes with
    | none => simp [hl]
    | some p =>
      cases p with
      | none => simp [hl]
      | some v =>
        simp only [hl] at he ⊢
        by_cases hc : v.connections = 0
        · simp only [hc, if_true] at he ⊢
          cases hs : env.lstat <;> cases hm : env.mkdirAll <;> cases hf : env.sshfs <;>
            simp_all [mountVolume, mountDone]
        · simp [hc, mountDone] at he
  · intro v e hv he
    by_cases h : v.connections - 1 ≤ 0
    · cases hu : env.umount with
      | none => simp [Unmount, hv, h, unmountVolume, hu] at he
      | some cause =>
        simp [Unmount, hv, h, unmountVolume, hu] at he
        refine ⟨⟨cause, rfl, he.symm⟩, ?_⟩
        simp [Unmount, hv, h, unmountVolume, hu, setRecord_setRecord, mapGet_setRecord_self _ _ _ _ hv]
    · simp [Unmount, hv, h] at he

theorem failure_leaves_counts_witness :
    (Mount calmEnv "y" (sampleDriver 1)).reply = .error (.notFound "y") ∧
      (Mount calmEnv "y" (sampleDriver 1)).driver = sampleDriver 1 ∧
      mapGet "x" (sampleDriver 1).volumes = some (some (sampleVolume 1)) ∧
      (Unmount umountFailsEnv "x" (sampleDriver 1)).reply =
        .error (.os "exit status 32") ∧
      mapGet "x" (Unmount umountFailsEnv "x" (sampleDriver 1)).driver.volumes =
        some (some { sampleVolume 1 with connections := (sampleVolume 1).connections - 1 }) :=
  ⟨by decide,
    (failure_leaves_counts calmEnv "y" (sampleDriver 1)).1 (.notFound "y") (by decide),
    by decide, by decide,
    ((failure_leaves_counts umountFailsEnv "x" (sampleDriver 1)).2 (sampleVolume 1)
      (.os "exit status 32") (by decide) (by decide)).2⟩

/-! ## The options loop of Create -/

theorem lookup_eq_none_of_not_mem {β : Type} (k : String) (l : List (String × β))
    (h : k ∉ l.map Prod.fst) : l.lookup k = none := by
  induction l with
  | nil => rfl
  | cons kv rest ih =>
    obtain ⟨k₁, v₁⟩ := kv
    simp only [List.map_cons, List.mem_cons, not_or] at h
    have h' : (k == k₁) = false := by simpa using h.1
    simp [List.lookup, h', ih h.2]

/-- The loop of `Create` over the options, from the record `v`. -/
theorem parse_fold_cons (v : DockerVolume) (kv : String × String)
    (rest : List (String × String)) :
    List.foldl (fun v kv => parseOption v kv.1 kv.2) v (kv :: rest) =
      List.foldl (fun v kv => parseOption v kv.1 kv.2) (parseOption v kv.1 kv.2) rest := rfl

theorem parse_fold_sshcmd (options : List (String × String)) :
    ∀ v : DockerVolume, (options.map Prod.fst).Nodup →
      (options.foldl (fun v kv => parseOption v kv.1 kv.2) v).Sshcmd =
        (options.lookup "sshcmd").getD v.Sshcmd := by
  induction options with
  | nil => intro v _; rfl
  | cons kv rest ih =>
    intro v hnd
    obtain ⟨k, val⟩ := kv
    simp only [List.map_cons, List.nodup_cons] at hnd
    rw [parse_fold_cons, ih _ hnd.2]
    by_cases hk : k = "sshcmd"
    · subst hk
      simp [parseOption, List.lookup, lookup_eq_none_of_not_mem _ _ hnd.1]
    · have h' : ("sshcmd" == k) = false := by simpa using fun e => hk e.symm
      simp only [List.lookup, h']
      unfold parseOption
      simp only [hk, if_false]
      split_ifs <;> rfl

theorem parse_fold_password (options : List (String × String)) :
    ∀ v : DockerVolume, (options.map Prod.fst).Nodup →
      (options.foldl (fun v kv => parseOption v kv.1 kv.2) v).Password =
        (options.lookup "password").getD v.Password := by
  induction options with
  | nil => intro v _; rfl
  | cons kv rest ih =>
    intro v hnd
    obtain ⟨k, val⟩ := kv
    simp only [List.map_cons, List.nodup_cons] at hnd
    rw [parse_fold_cons, ih _ hnd.2]
    by_cases hk : k = "password"
    · subst hk
      simp [parseOption, List.lookup, lookup_eq_none_of_not_mem _ _ hnd.1]
    · have h' : ("password" == k) = false := by simpa using fun e => hk e.symm
      simp only [List.lookup, h']
      unfold parseOption
      simp only [hk, if_false]
      split_ifs <;> rfl

theorem parse_fold_port (options : List (String × String)) :
    ∀ v : DockerVolume, (options.map Prod.fst).Nodup →
      (options.foldl (fun v kv => parseOption v kv.1 kv.2) v).Port =
        (options.lookup "port").getD v.Port := by
  induction options with
  | nil => intro v _; rfl
  | cons kv rest ih =>
    intro v hnd
    obtain ⟨k, val⟩ := kv
    simp only [List.map_cons, List.nodup_cons] at hnd
    rw [parse_fold_cons, ih _ hnd.2]
    by_cases hk : k = "port"
    · subst hk
      simp [parseOption, List.lookup, lookup_eq_none_of_not_mem _ _ hnd.1]
    · have h' : ("port" == k) = false := by simpa using fun e => hk e.symm
      simp only [List.lookup, h']
      unfold parseOption
      simp only [hk, if_false]
      split_ifs <;> rfl

theorem parse_fold_connections (options : List (String × String)) :
    ∀ v : DockerVolume,
      (options.foldl (fun v kv => parseOption v kv.1 kv.2) v).connections =
        v.connections := by
  induction options with
  | nil => intro v; rfl
  | cons kv rest ih =>
    intro v
    rw [parse_fold_cons, ih]
    unfold parseOption
    split_ifs <;> rfl

theorem parse_fold_options (options : List (String × String)) :
    ∀ v : DockerVolume,
      (options.foldl (fun v kv => parseOption v kv.1 kv.2) v).Options =
        v.Options ++
          (options.filter (fun kv => kv.1 ∉ ["sshcmd", "password", "port"])).map
            (fun kv => if kv.2 = "" then kv.1 else kv.1 ++ "=" ++ kv.2) := by
  induction options with
  | nil => intro v; simp
  | cons kv rest ih =>
    intro v
    obtain ⟨k, val⟩ := kv
    rw [parse_fold_cons, ih]
    unfold parseOption
    by_cases h1 : k = "sshcmd"
    · simp [h1]
    · by_cases h2 : k = "password"
      · simp [h2]
      · by_cases h3 : k = "port"
        · simp [h3]
        · by_cases h4 : val = "" <;> simp [h1, h2, h3, h4]

theorem parseOptions_sshcmd (options : List (String × String))
    (hnd : (options.map Prod.fst).Nodup) :
    (parseOptions options).Sshcmd = (options.lookup "sshcmd").getD "" :=
  parse_fold_sshcmd options DockerVolume.zero hnd

theorem parseOptions_password (options : List (String × String))
    (hnd : (options.map Prod.fst).Nodup) :
    (parseOptions options).Password = (options.lookup "password").getD "" :=
  parse_fold_password options DockerVolume.zero hnd

theorem parseOptions_port (options : List (String × String))
    (hnd : (options.map Prod.fst).Nodup) :
    (parseOptions options).Port = (options.lookup "port").getD "" :=
  parse_fold_port options DockerVolume.zero hnd

theorem parseOptions_connections (options : List (String × String)) :
    (parseOptions options).connections = 0 :=
  parse_fold_connections options DockerVolume.zero

theorem parseOptions_options (options : List (String × String)) :
    (parseOptions options).Options =
      (options.filter (fun kv => kv.1 ∉ ["sshcmd", "password", "port"])).map
        (fun kv => if kv.2 = "" then kv.1 else kv.1 ++ "=" ++ kv.2) := by
  have h := parse_fold_options options DockerVolume.zero
  simpa [parseOptions, DockerVolume.zero] using h

/-- The driver after a `Create` that passes the `sshcmd` check, on a registry that is
not the nil map. -/
theorem create_driver (env : Env) (name : String) (options : List (String × String))
    (d : sshfsDriver) (entries : Entries) (hm : d.volumes = some entries)
    (hne : (parseOptions options).Sshcmd ≠ "") :
    (Create env name options d).driver =
      { d with
        volumes := some
          (mapSet name
            (some { parseOptions options with
              Mountpoint := filepathJoin
                [d.root, sprintfHex (md5Sum (utf8Bytes (parseOptions options).Sshcmd))] })
            entries) } ∧
    (Create env name options d).effects =
      [.writeFile d.statePath
        (marshalVolumes (Create env name options d).driver.volumes) 0o644] := by
  cases hw : env.writeFile <;> simp [Create, hne, saveState, hw, hm]

theorem mapGet_some (k : String) (m : Volumes) (p : Option DockerVolume)
    (h : mapGet k m = some p) : ∃ entries, m = some entries ∧ entries.lookup k = some p := by
  cases m with
  | none => simp [mapGet] at h
  | some entries => exact ⟨entries, rfl, h⟩

/-! ## Create -/

/-- C7. `Create` fails with the error `'sshcmd' option required` exactly when the
options have no `sshcmd` key or an empty value under it; in that case the driver is
unchanged (no record is inserted or overwritten) and nothing is written; otherwise, when
the write of the state file succeeds (and the registry is a map), `Create` succeeds. -/
theorem create_requires_sshcmd (env : Env) (name : String)
    (options : List (String × String)) (d : sshfsDriver)
    (hnd : (options.map Prod.fst).Nodup) :
    ((Create env name options d).reply = .error .sshcmdRequired ↔
      (options.lookup "sshcmd" = none ∨ options.lookup "sshcmd" = some "")) ∧
    ((options.lookup "sshcmd" = none ∨ options.lookup "sshcmd" = some "") →
      (Create env name options d).driver = d ∧ (Create env name options d).effects = []) ∧
    (env.writeFile = none → d.volumes ≠ none →
      ¬ (options.lookup "sshcmd" = none ∨ options.lookup "sshcmd" = some "") →
      (Create env name options d).reply = .ok ()) := by
  have hS := parseOptions_sshcmd options hnd
  cases hl : options.lookup "sshcmd" with
  | none =>
    rw [hl] at hS
    simp [Create, hS]
  | some s =>
    rw [hl] at hS
    have hS' : (parseOptions options).Sshcmd = s := by simpa using hS
    by_cases hs : s = ""
    · subst hs
      simp [Create, hS']
    · cases hm : d.volumes <;> cases hw : env.writeFile <;>
        simp [Create, hS', hs, saveState, hw, hm]

theorem create_requires_sshcmd_witness :
    ([("password", "secret"), ("compression", "yes")].map Prod.fst).Nodup ∧
      (Create calmEnv "x" [("password", "secret"), ("compression", "yes")]
        (sampleDriver 1)).reply = .error .sshcmdRequired ∧
      (Create calmEnv "x" [("password", "secret"), ("compression", "yes")]
        (sampleDriver 1)).driver = sampleDriver 1 ∧
      (Create calmEnv "x" [("password", "secret"), ("compression", "yes")]
        (sampleDriver 1)).effects = [] :=
  have h := create_requires_sshcmd calmEnv "x" [("password", "secret"), ("compression", "yes")]
    (sampleDriver 1) (by decide)
  ⟨by decide, h.1.2 (Or.inl (by decide)), (h.2.1 (Or.inl (by decide))).1,
    (h.2.1 (Or.inl (by decide))).2⟩

/-- C10. `Create` does not look at an existing record. When the name has a record with
`connections = n > 0` and the options carry a non-empty `sshcmd`, `Create` replaces the
record by one with `connections = 0`; the only call it makes is the write of the state
file (no `umount` command is run). A `Remove` before the `Create` is rejected as in use;
a `Remove` that follows it is not, and when the removal of the directory succeeds it
deletes the record. -/
theorem create_overwrites_mounted (env₁ env₂ : Env) (name : String)
    (options : List (String × String)) (d : sshfsDriver) (v : DockerVolume) (s : String)
    (hv : mapGet name d.volumes = some (some v)) (hc : 0 < v.connections)
    (hnd : (options.map Prod.fst).Nodup) (hs : options.lookup "sshcmd" = some s)
    (hne : s ≠ "") :
    (∃ v', mapGet name (Create env₁ name options d).driver.volumes = some (some v') ∧
      v'.connections = 0 ∧ v'.Sshcmd = s) ∧
    (Create env₁ name options d).effects =
      [.writeFile d.statePath
        (marshalVolumes (Create env₁ name options d).driver.volumes) 0o644] ∧
    (Remove env₂ name d).reply = .error (.inUse name) ∧
    (Remove env₂ name (Create env₁ name options d).driver).reply ≠ .error (.inUse name) ∧
    (env₂.removeAll = none →
      mapGet name (Remove env₂ name (Create env₁ name options d).driver).driver.volumes =
        none) := by
  have hS : (parseOptions options).Sshcmd = s := by
    simpa [hs] using parseOptions_sshcmd options hnd
  have hC := parseOptions_connections options
  have hne' : (parseOptions options).Sshcmd ≠ "" := by rw [hS]; exact hne
  obtain ⟨entries, hm, _⟩ := mapGet_some name d.volumes (some v) hv
  obtain ⟨hd, he⟩ := create_driver env₁ name options d entries hm hne'
  refine ⟨⟨{ parseOptions options with
      Mountpoint := filepathJoin
        [d.root, sprintfHex (md5Sum (utf8Bytes (parseOptions options).Sshcmd))] },
    by rw [hd]; simp [mapGet, lookup_mapSet_self], hC, hS⟩, he, ?_, ?_, ?_⟩
  · have hc' : v.connections ≠ 0 := by omega
    simp [Remove, hv, hc']
  · rw [hd]
    cases hr : env₂.removeAll <;> cases hw : env₂.writeFile <;>
      simp [Remove, mapGet, lookup_mapSet_self, hC, hr, saveState, hw]
  · intro hr
    rw [hd]
    cases hw : env₂.writeFile <;>
      simp [Remove, mapGet, lookup_mapSet_self, hC, hr, saveState, hw, mapDelete,
        lookup_deleteEntry_self]

theorem create_overwrites_mounted_witness :
    mapGet "x" (sampleDriver 3).volumes = some (some (sampleVolume 3)) ∧
      0 < (sampleVolume 3).connections ∧
      (sampleOptions.map Prod.fst).Nodup ∧
      sampleOptions.lookup "sshcmd" = some "user@host:/path" ∧
      "user@host:/path" ≠ "" ∧
      (Remove calmEnv "x" (Create calmEnv "x" sampleOptions (sampleDriver 3)).driver).reply ≠
        .error (.inUse "x") ∧
      mapGet "x" (Remove calmEnv "x"
        (Create calmEnv "x" sampleOptions (sampleDriver 3)).driver).driver.volumes = none :=
  have h := create_overwrites_mounted calmEnv calmEnv "x" sampleOptions (sampleDriver 3)
    (sampleVolume 3) "user@host:/path" (by decide) (by decide) (by decide) (by decide)
    (by decide)
  ⟨by decide, by decide, by decide, by decide, by decide, h.2.2.2.1,
    h.2.2.2.2 (by decide)⟩

/-! ## The sign of the counter -/

/-- C2 (the code at the failing input). From the driver `main` constructs when no state
file exists, `Create x` followed by an `Unmount x` during which the `umount` command
fails leaves the record of `x` with `connections = -1`: the decrement is made before the
command runs and the reset to 0 is skipped by the early return. -/
theorem unmount_failure_goes_negative :
    newDockerDriver "/mnt" .notExist = .ok emptyDriver ∧
      (Unmount umountFailsEnv "x" (Create calmEnv "x" sampleOptions emptyDriver).driver).reply =
        .error (.os "exit status 32") ∧
      (mapGet "x" (run emptyDriver [(calmEnv, .create "x" sampleOptions),
        (umountFailsEnv, .unmount "x")]).volumes).join.map
          (fun v => v.connections) = some (-1) := by
  refine ⟨by rfl, ?_, ?_⟩
  · simp [Create, Unmount, sampleOptions, parseOptions, parseOption, DockerVolume.zero,
      saveState, calmEnv, umountFailsEnv, emptyDriver, mapSet, unmountVolume, List.lookup,
      mapGet, setRecord]
  · simp [run, step, Create, Unmount, sampleOptions, parseOptions, parseOption,
      DockerVolume.zero, saveState, calmEnv, umountFailsEnv, emptyDriver, mapSet,
      unmountVolume, List.lookup, mapGet, setRecord]

/-! ## Mount -/

/-- A `Mount` on a record whose counter is not 0 only increments the counter. -/
theorem mount_busy (env : Env) (name : String) (d : sshfsDriver) (v : DockerVolume)
    (hv : mapGet name d.volumes = some (some v)) (hc : v.connections ≠ 0) :
    Mount env name d = mountDone name v d [] := by
  simp [Mount, hv, hc]

/-- A `Mount` on a record whose counter is 0, when the directory check passes and the
`sshfs` command succeeds. -/
theorem mount_first (env : Env) (name : String) (d : sshfsDriver) (v : DockerVolume)
    (hv : mapGet name d.volumes = some (some v)) (h0 : v.connections = 0)
    (hdir : env.lstat = .isDir ∨ (env.lstat = .notExist ∧ env.mkdirAll = none))
    (hrun : env.sshfs = none) :
    ∃ checks : List Effect, (∀ e ∈ checks, e.isSshfs = false) ∧
      Mount env name d =
        mountDone name v d
          (checks ++ [.exec "sshfs" (mountCommand v).1 (mountCommand v).2]) := by
  rcases hdir with hl | ⟨hl, hm⟩
  · exact ⟨[.lstat v.Mountpoint], by simp [Effect.isSshfs],
      by simp [Mount, hv, h0, hl, mountVolume, hrun]⟩
  · exact ⟨[.lstat v.Mountpoint, .mkdirAll v.Mountpoint 0o755], by simp [Effect.isSshfs],
      by simp [Mount, hv, h0, hl, hm, mountVolume, hrun]⟩

/-- Consecutive `Mount` calls on a record whose counter is positive. -/
theorem mounts_busy (name : String) (envs : List Env) :
    ∀ (d : sshfsDriver) (v : DockerVolume),
      mapGet name d.volumes = some (some v) → 0 < v.connections →
      (∀ r ∈ mounts name envs d, r.reply = .ok v.Mountpoint ∧ r.effects = []) ∧
      mapGet name (lastDriver d (mounts name envs d)).volumes =
        some (some { v with connections := v.connections + envs.length }) := by
  induction envs with
  | nil =>
    intro d v hv _
    simp [mounts, lastDriver, hv]
  | cons env envs ih =>
    intro d v hv hc
    have hne : v.connections ≠ 0 := by omega
    have hm := mount_busy env name d v hv hne
    have hv' : mapGet name (Mount env name d).driver.volumes =
        some (some { v with connections := v.connections + 1 }) := by
      rw [hm]; simp [mountDone, mapGet_setRecord_self _ _ _ _ hv]
    obtain ⟨h1, h2⟩ := ih (Mount env name d).driver
      { v with connections := v.connections + 1 } hv' (by simp; omega)
    refine ⟨?_, ?_⟩
    · intro r hr
      simp only [mounts, List.mem_cons] at hr
      rcases hr with hr | hr
      · subst hr; rw [hm]; simp [mountDone]
      · exact h1 r hr
    · simp only [mounts, lastDriver]
      rw [h2]
      simp only [List.length_cons, Nat.cast_add, Nat.cast_one]
      congr 2
      simp only [DockerVolume.mk.injEq, true_and]
      omega

/-- C3. For a record with `connections = 0`, `N ≥ 1` consecutive `Mount` calls on its
name, the first with the directory check passing and the `sshfs` command succeeding, all
return the record's mount point, leave `connections = N`, and run the `sshfs` command
exactly once, in the first call (the last thing that call does); the later calls make no
call into the operating system. In general a `Mount` on a record with `connections > 0`
makes no call into the operating system, returns the mount point, adds 1 to
`connections` and changes nothing else. -/
theorem mount_shares_one_mount (env : Env) (rest : List Env) (name : String)
    (d : sshfsDriver) (v : DockerVolume)
    (hv : mapGet name d.volumes = some (some v)) (h0 : v.connections = 0)
    (hdir : env.lstat = .isDir ∨ (env.lstat = .notExist ∧ env.mkdirAll = none))
    (hrun : env.sshfs = none) :
    (∀ r ∈ mounts name (env :: rest) d, r.reply = .ok v.Mountpoint) ∧
    mapGet name (lastDriver d (mounts name (env :: rest) d)).volumes =
      some (some { v with connections := (env :: rest).length }) ∧
    ((mounts name (env :: rest) d).flatMap (fun r => r.effects)).countP Effect.isSshfs = 1 ∧
    (Mount env name d).effects.getLast? =
      some (.exec "sshfs" (mountCommand v).1 (mountCommand v).2) ∧
    (∀ r ∈ mounts name rest (Mount env name d).driver, r.effects = []) ∧
    (∀ (env' : Env) (d' : sshfsDriver) (v' : DockerVolume),
      mapGet name d'.volumes = some (some v') → 0 < v'.connections →
      (Mount env' name d').reply = .ok v'.Mountpoint ∧
      (Mount env' name d').effects = [] ∧
      mapGet name (Mount env' name d').driver.volumes =
        some (some { v' with connections := v'.connections + 1 }) ∧
      (∀ other, other ≠ name →
        mapGet other (Mount env' name d').driver.volumes = mapGet other d'.volumes) ∧
      (Mount env' name d').driver.root = d'.root ∧
      (Mount env' name d').driver.statePath = d'.statePath) := by
  obtain ⟨checks, hchecks, hm⟩ := mount_first env name d v hv h0 hdir hrun
  have hv' : mapGet name (Mount env name d).driver.volumes =
      some (some { v with connections := v.connections + 1 }) := by
    rw [hm]; simp [mountDone, mapGet_setRecord_self _ _ _ _ hv]
  obtain ⟨h1, h2⟩ := mounts_busy name rest (Mount env name d).driver
    { v with connections := v.connections + 1 } hv' (by simp; omega)
  refine ⟨?_, ?_, ?_, ?_, ?_, ?_⟩
  · intro r hr
    simp only [mounts, List.mem_cons] at hr
    rcases hr with hr | hr
    · subst hr; rw [hm]; simp [mountDone]
    · exact (h1 r hr).1
  · simp only [mounts, lastDriver]
    rw [h2]
    simp only [List.length_cons, Nat.cast_add, Nat.cast_one]
    congr 2
    simp only [DockerVolume.mk.injEq, true_and]
    omega
  · have hnil : (mounts name rest (Mount env name d).driver).flatMap
        (fun r => r.effects) = [] := by
      rw [List.flatMap_eq_nil_iff]
      intro r hr
      exact (h1 r hr).2
    simp only [mounts, List.flatMap_cons, hnil, List.append_nil]
    rw [hm]
    simp only [mountDone, List.countP_append, List.countP_cons, List.countP_nil]
    have hz : List.countP Effect.isSshfs checks = 0 := by
      rw [List.countP_eq_zero]
      intro e he
      simp [hchecks e he]
    simp [hz, Effect.isSshfs]
  · rw [hm]
    simp [mountDone]
  · intro r hr
    exact (h1 r hr).2
  · intro env' d' v' hv'' hc
    have hne : v'.connections ≠ 0 := by omega
    rw [mount_busy env' name d' v' hv'' hne]
    refine ⟨rfl, rfl, by simp [mountDone, mapGet_setRecord_self _ _ _ _ hv''], ?_, rfl, rfl⟩
    intro other ho
    simp [mountDone, mapGet_setRecord_ne _ _ _ _ ho]

theorem mount_shares_one_mount_witness :
    mapGet "x" (sampleDriver 0).volumes = some (some (sampleVolume 0)) ∧
      (sampleVolume 0).connections = 0 ∧
      (calmEnv.lstat = .isDir ∨ (calmEnv.lstat = .notExist ∧ calmEnv.mkdirAll = none)) ∧
      calmEnv.sshfs = none ∧
      mapGet "x" (lastDriver (sampleDriver 0)
        (mounts "x" [calmEnv, calmEnv, calmEnv] (sampleDriver 0))).volumes =
          some (some { sampleVolume 0 with
            connections := [calmEnv, calmEnv, calmEnv].length }) ∧
      ((mounts "x" [calmEnv, calmEnv, calmEnv] (sampleDriver 0)).flatMap
        (fun r => r.effects)).countP Effect.isSshfs = 1 :=
  have h := mount_shares_one_mount calmEnv [calmEnv, calmEnv] "x" (sampleDriver 0)
    (sampleVolume 0) (by decide) (by decide) (by decide) (by decide)
  ⟨by decide, by decide, by decide, by decide, h.2.1, h.2.2.1⟩

/-! ## The command line of `sshfs` -/

theorem foldl_append_options (options : List String) :
    ∀ args : List String,
      options.foldl (fun args option => args ++ ["-o", option]) args =
        args ++ options.flatMap (fun option => ["-o", option]) := by
  induction options with
  | nil => intro args; simp
  | cons o rest ih =>
    intro args
    simp only [List.foldl_cons, ih, List.flatMap_cons, List.append_assoc]

/-- C8 (the claim as worded fails). For the sample record the arguments after the
program name start with the host-key-check flag, not with the remote target, the mount
point is the third argument and the last argument is an extra option: the vector is not
the one the specification gives. -/
theorem mount_args_not_spec_order :
    (mountVolume calmEnv (sampleVolume 0)).1 =
      [.exec "sshfs"
        ["sshfs", "-oStrictHostKeyChecking=no", "user@host:/path",
          "/mnt/volumes/a8b4e28bdb275bc0429253e408d3b6ac", "-p", "2222",
          "-o", "workaround=rename", "-o", "password_stdin", "-o", "compression=yes"]
        (some "secret")] ∧
    specMountArgs (sampleVolume 0) =
      ["user@host:/path", "-oStrictHostKeyChecking=no", "-p", "2222",
        "-o", "workaround=rename", "-o", "password_stdin", "-o", "compression=yes",
        "/mnt/volumes/a8b4e28bdb275bc0429253e408d3b6ac"] ∧
    (mountCommand (sampleVolume 0)).1.tail ≠ specMountArgs (sampleVolume 0) ∧
    (mountCommand (sampleVolume 0)).1.tail.getLast? ≠ some (sampleVolume 0).Mountpoint := by
  refine ⟨?_, by decide, by decide, by decide⟩
  simp [mountVolume, mountCommand, sampleVolume, calmEnv]

/-- C8 (amended). The command `mountVolume` runs is `sshfs` with, after the program
name and in this order: the host-key-check flag, the remote target, the mount point,
then `-p` and the port exactly when the port is not empty, then `-o workaround=rename
-o password_stdin` exactly when the password is not empty, then `-o` and the entry for
each entry of `Options` in list order; the password is fed to standard input exactly
when it is not empty. The command is a function of the fields of the record alone. -/
theorem mount_argument_vector (env : Env) (v : DockerVolume) :
    (mountVolume env v).1 =
      [.exec "sshfs"
        ("sshfs" :: (["-oStrictHostKeyChecking=no", v.Sshcmd, v.Mountpoint] ++
          (if v.Port ≠ "" then ["-p", v.Port] else []) ++
          (if v.Password ≠ "" then ["-o", "workaround=rename", "-o", "password_stdin"]
            else []) ++
          v.Options.flatMap (fun option => ["-o", option])))
        (if v.Password ≠ "" then some v.Password else none)] := by
  have hcmd : mountCommand v =
      ("sshfs" :: (["-oStrictHostKeyChecking=no", v.Sshcmd, v.Mountpoint] ++
          (if v.Port ≠ "" then ["-p", v.Port] else []) ++
          (if v.Password ≠ "" then ["-o", "workaround=rename", "-o", "password_stdin"]
            else []) ++
          v.Options.flatMap (fun option => ["-o", option])),
        if v.Password ≠ "" then some v.Password else none) := by
    simp only [mountCommand, foldl_append_options]
    by_cases hp : v.Port = "" <;> by_cases hw : v.Password = "" <;> simp [hp, hw]
  cases hs : env.sshfs <;> simp [mountVolume, hs, hcmd]

/-! ## Saving and reloading the state -/

theorem decodeItems_strings (xs : List String) :
    decodeItems (xs.map JSON.str) = .ok xs := by
  induction xs with
  | nil => rfl
  | cons x rest ih => simp [decodeItems, decodeString, ih]

theorem decodeOptions_marshal (xs : List String) :
    decodeOptions (marshalOptions xs) = .ok xs := by
  cases xs with
  | nil => rfl
  | cons x rest =>
    simp only [marshalOptions, decodeOptions]
    exact decodeItems_strings (x :: rest)

theorem fieldOf_names :
    fieldOf "Password" = some .Password ∧ fieldOf "Sshcmd" = some .Sshcmd ∧
      fieldOf "Port" = some .Port ∧ fieldOf "Options" = some .Options ∧
      fieldOf "Mountpoint" = some .Mountpoint := by
  decide

theorem decodePtr_marshal (p : Option DockerVolume) :
    decodePtr (marshalPtr p) = .ok (p.map (fun v => { v with connections := 0 })) := by
  cases p with
  | none => rfl
  | some v =>
    obtain ⟨h1, h2, h3, h4, h5⟩ := fieldOf_names
    simp [marshalPtr, marshalVolume, decodePtr, decodeMembers, h1, h2, h3, h4, h5,
      decodeString, decodeOptions_marshal, DockerVolume.zero]

theorem decodeEntries_marshal (f : String → Option DockerVolume) (keys : List String) :
    ∀ m : Entries,
      decodeEntries m (keys.map (fun k => (k, marshalPtr (f k)))) =
        .ok (keys.foldl
          (fun m k => mapSet k ((f k).map (fun v => { v with connections := 0 })) m) m) := by
  induction keys with
  | nil => intro m; rfl
  | cons k rest ih =>
    intro m
    simp only [List.map_cons, decodeEntries, decodePtr_marshal, List.foldl_cons, ih]

theorem lookup_foldl_mapSet (g : String → Option DockerVolume) (name : String)
    (keys : List String) :
    ∀ m : Entries,
      (keys.foldl (fun m k => mapSet k (g k) m) m).lookup name =
        if name ∈ keys then some (g name) else m.lookup name := by
  induction keys with
  | nil => intro m; simp
  | cons k rest ih =>
    intro m
    rw [List.foldl_cons, ih]
    by_cases hr : name ∈ rest
    · simp [hr]
    · by_cases hk : name = k
      · subst hk
        simp [hr, lookup_mapSet_self]
      · simp [hr, hk, lookup_mapSet_ne _ _ _ _ hk]

theorem lookup_isSome_of_mem {β : Type} (k : String) (l : List (String × β))
    (h : k ∈ l.map Prod.fst) : ∃ b, l.lookup k = some b := by
  induction l with
  | nil => simp at h
  | cons kv rest ih =>
    obtain ⟨k₁, v₁⟩ := kv
    by_cases hk : k = k₁
    · subst hk
      exact ⟨v₁, by simp [List.lookup]⟩
    · have h' : (k == k₁) = false := by simpa using hk
      simp only [List.map_cons, List.mem_cons, hk, false_or] at h
      obtain ⟨b, hb⟩ := ih h
      exact ⟨b, by simp [List.lookup, h', hb]⟩

theorem mem_sortedKeys (m : Entries) (name : String) :
    name ∈ sortedKeys m ↔ name ∈ m.map Prod.fst := by
  unfold sortedKeys
  rw [(List.perm_insertionSort _ _).mem_iff, List.mem_dedup]

/-- The registry `newDockerDriver` decodes from what `saveState` writes. -/
theorem lookup_reloaded (m : Entries) (name : String) :
    ((sortedKeys m).foldl
      (fun acc k =>
        mapSet k ((m.lookup k).join.map (fun v => { v with connections := 0 })) acc)
      []).lookup name =
      (m.lookup name).map (Option.map (fun v => { v with connections := 0 })) := by
  rw [lookup_foldl_mapSet
    (fun k => (m.lookup k).join.map (fun v => { v with connections := 0 }))]
  by_cases h : name ∈ sortedKeys m
  · obtain ⟨p, hp⟩ := lookup_isSome_of_mem name m ((mem_sortedKeys m name).1 h)
    simp [h, hp]
  · have hn := lookup_eq_none_of_not_mem name m (fun hm => h ((mem_sortedKeys m name).2 hm))
    simp [h, hn]

/-- C9. What `saveState` writes is the encoding of the registry, and a driver
constructed from a state file with that content holds exactly the same names, each with
the same record except that `connections` is 0 (the field is not exported, so it is not
in the file): in particular the same `Sshcmd` and the same `Mountpoint`. -/
theorem save_then_reload (env : Env) (root : String) (d : sshfsDriver) :
    (saveState env d).effects = [.writeFile d.statePath (marshalVolumes d.volumes) 0o644] ∧
    ∃ d', newDockerDriver root (.data (marshalVolumes d.volumes)) = .ok d' ∧
      (∀ name, mapGet name d'.volumes =
        (mapGet name d.volumes).map (Option.map (fun v => { v with connections := 0 }))) ∧
      (∀ name, (mapGet name d'.volumes).isSome = (mapGet name d.volumes).isSome) ∧
      (∀ name v, mapGet name d.volumes = some (some v) →
        ∃ v', mapGet name d'.volumes = some (some v') ∧ v'.Sshcmd = v.Sshcmd ∧
          v'.Mountpoint = v.Mountpoint ∧ v'.Password = v.Password ∧ v'.Port = v.Port ∧
          v'.Options = v.Options) ∧
      (∀ name v', mapGet name d'.volumes = some (some v') → v'.connections = 0) := by
  have hload : ∃ d', newDockerDriver root (.data (marshalVolumes d.volumes)) = .ok d' ∧
      ∀ name, mapGet name d'.volumes =
        (mapGet name d.volumes).map (Option.map (fun v => { v with connections := 0 })) := by
    cases hm : d.volumes with
    | none =>
      exact ⟨_, rfl, fun name => rfl⟩
    | some m =>
      refine ⟨{ root := filepathJoin [root, "volumes"],
                statePath := filepathJoin [root, "state", "sshfs-state.json"],
                volumes := some ((sortedKeys m).foldl
                  (fun acc k =>
                    mapSet k ((m.lookup k).join.map (fun v => { v with connections := 0 }))
                      acc)
                  []) }, ?_, ?_⟩
      · simp only [newDockerDriver, marshalVolumes, unmarshalVolumes, Option.getD_some]
        rw [decodeEntries_marshal (fun k => (m.lookup k).join)]
      · intro name
        exact lookup_reloaded m name
  obtain ⟨d', hd', hget⟩ := hload
  refine ⟨?_, d', hd', hget, ?_, ?_, ?_⟩
  · cases hw : env.writeFile <;> simp [saveState, hw]
  · intro name
    rw [hget name]
    cases mapGet name d.volumes <;> rfl
  · intro name v hv
    refine ⟨{ v with connections := 0 }, ?_, rfl, rfl, rfl, rfl, rfl⟩
    rw [hget name, hv]
    rfl
  · intro name v' hv'
    rw [hget name] at hv'
    cases hl : mapGet name d.volumes with
    | none => simp [hl] at hv'
    | some p =>
      cases p with
      | none => simp [hl] at hv'
      | some v =>
        simp [hl] at hv'
        rw [← hv']

/-! ## Paths -/

theorem splitSlash_ne_nil (p : List Char) : splitSlash p ≠ [] := by
  cases p with
  | nil => simp [splitSlash]
  | cons c cs =>
    unfold splitSlash
    split_ifs
    · simp
    · split <;> simp

theorem splitSlash_no_slash (c : List Char) (h : '/' ∉ c) : splitSlash c = [c] := by
  induction c with
  | nil => rfl
  | cons x xs ih =>
    simp only [List.mem_cons, not_or] at h
    have hx : x ≠ '/' := fun e => h.1 e.symm
    simp [splitSlash, hx, ih h.2]

theorem splitSlash_component_cons (x rest : List Char) (h : '/' ∉ x) :
    splitSlash (x ++ '/' :: rest) = x :: splitSlash rest := by
  induction x with
  | nil => simp [splitSlash]
  | cons a as ih =>
    simp only [List.mem_cons, not_or] at h
    have ha : a ≠ '/' := fun e => h.1 e.symm
    simp [splitSlash, ha, ih h.2]

theorem splitSlash_append_component (p c : List Char) (h : '/' ∉ c) :
    splitSlash (p ++ '/' :: c) = splitSlash p ++ [c] := by
  induction p with
  | nil => simp [splitSlash, splitSlash_no_slash c h]
  | cons a as ih =>
    by_cases ha : a = '/'
    · simp [splitSlash, ha, ih]
    · simp only [List.cons_append, splitSlash, ha, if_false, List.append_eq]
      rw [ih]
      cases hs : splitSlash as with
      | nil => exact absurd hs (splitSlash_ne_nil as)
      | cons y ys => simp

theorem splitSlash_no_slash_mem (p : List Char) : ∀ c ∈ splitSlash p, '/' ∉ c := by
  induction p with
  | nil => simp [splitSlash]
  | cons a as ih =>
    by_cases ha : a = '/'
    · intro c hc
      simp only [splitSlash, ha, if_true, List.mem_cons] at hc
      rcases hc with hc | hc
      · simp [hc]
      · exact ih c hc
    · intro c hc
      simp only [splitSlash, ha, if_false] at hc
      cases hs : splitSlash as with
      | nil => exact absurd hs (splitSlash_ne_nil as)
      | cons y ys =>
        rw [hs] at hc ih
        simp only [List.mem_cons] at hc
        rcases hc with hc | hc
        · subst hc
          have hy := ih y (by simp)
          simp only [List.mem_cons, not_or]
          exact ⟨fun e => ha e.symm, hy⟩
        · exact ih c (by simp [hc])

theorem isRooted_append (p q : List Char) (hp : p ≠ []) :
    isRooted (p ++ q) = isRooted p := by
  cases p with
  | nil => exact absurd rfl hp
  | cons a as => rfl

theorem cleanStep_simple (rooted : Bool) (s : List (List Char)) (c : List Char)
    (h1 : c ≠ []) (h2 : c ≠ ['.']) (h3 : c ≠ ['.', '.']) :
    cleanStep rooted s c = c :: s := by
  simp [cleanStep, h1, h2, h3]

theorem cleanStep_good (rooted : Bool) (s : List (List Char)) (e : List Char)
    (hs : GoodStack rooted s) (he : '/' ∉ e) : GoodStack rooted (cleanStep rooted s e) := by
  by_cases hpush : cleanStep rooted s e = e :: s
  · rw [hpush]
    exact ⟨he, hpush, hs⟩
  · unfold cleanStep at hpush ⊢
    by_cases h1 : e = [] ∨ e = ['.']
    · simpa [h1] using hs
    · by_cases h2 : e = ['.', '.']
      · simp only [h1, if_false, h2, if_true] at hpush ⊢
        cases s with
        | nil =>
          cases rooted
          · simp at hpush
          · simp [GoodStack]
        | cons top rest =>
          by_cases h3 : top = ['.', '.']
          · cases rooted
            · simp [h3] at hpush
            · simpa [h3] using hs
          · simp only [h3, if_false]
            exact hs.2.2
      · simp [h1, h2] at hpush

theorem foldl_cleanStep_good (rooted : Bool) (comps : List (List Char)) :
    ∀ s, GoodStack rooted s → (∀ c ∈ comps, '/' ∉ c) →
      GoodStack rooted (comps.foldl (cleanStep rooted) s) := by
  induction comps with
  | nil => intro s hs _; exact hs
  | cons c rest ih =>
    intro s hs hc
    exact ih _ (cleanStep_good rooted s c hs (hc c (by simp)))
      (fun c' hc' => hc c' (by simp [hc']))

theorem cleanStack_good (p : List Char) : GoodStack (isRooted p) (cleanStack p) :=
  foldl_cleanStep_good _ _ [] trivial (splitSlash_no_slash_mem p)

theorem goodStack_head_ne_nil (rooted : Bool) (e : List Char) (s : List (List Char))
    (h : GoodStack rooted (e :: s)) : e ≠ [] := by
  intro he
  have hp := h.2.1
  rw [he] at hp
  simp only [cleanStep, true_or, if_true] at hp
  have := congrArg List.length hp
  simp at this

theorem foldl_cleanStep_reverse (rooted : Bool) (s : List (List Char))
    (h : GoodStack rooted s) : s.reverse.foldl (cleanStep rooted) [] = s := by
  induction s with
  | nil => rfl
  | cons e rest ih =>
    rw [List.reverse_cons, List.foldl_append, ih h.2.2]
    exact h.2.1

theorem joinSlash_append_singleton (l : List (List Char)) (c : List Char) :
    joinSlash (l ++ [c]) = if l = [] then c else joinSlash l ++ '/' :: c := by
  induction l with
  | nil => simp [joinSlash]
  | cons x rest ih =>
    cases rest with
    | nil => simp [joinSlash]
    | cons y ys =>
      have h' : joinSlash (y :: ys ++ [c]) = joinSlash (y :: ys) ++ '/' :: c := by
        simpa using ih
      simp only [List.cons_append] at h' ⊢
      simp [joinSlash, h']

theorem renderPath_cons (rooted : Bool) (s : List (List Char)) (c : List Char) :
    renderPath rooted (c :: s) =
      if s = [] then (if rooted then '/' :: c else c) else renderPath rooted s ++ '/' :: c := by
  by_cases hs : s = []
  · subst hs
    cases rooted <;> simp [renderPath, joinSlash]
  · have hr : s.reverse ≠ [] := by simpa using hs
    cases rooted <;>
      simp [renderPath, hs, List.reverse_cons, joinSlash_append_singleton, hr]

theorem splitSlash_joinSlash (l : List (List Char)) (hl : l ≠ [])
    (h : ∀ c ∈ l, '/' ∉ c) : splitSlash (joinSlash l) = l := by
  induction l with
  | nil => exact absurd rfl hl
  | cons x rest ih =>
    cases rest with
    | nil => simpa [joinSlash] using splitSlash_no_slash x (h x (by simp))
    | cons y ys =>
      simp only [joinSlash]
      rw [splitSlash_component_cons _ _ (h x (by simp)),
        ih (by simp) (fun c hc => h c (by simp [hc]))]

theorem goodStack_no_slash (rooted : Bool) (s : List (List Char)) (h : GoodStack rooted s) :
    ∀ c ∈ s, '/' ∉ c := by
  induction s with
  | nil => simp
  | cons e rest ih =>
    intro c hc
    simp only [List.mem_cons] at hc
    rcases hc with hc | hc
    · subst hc; exact h.1
    · exact ih h.2.2 c hc

theorem goodStack_ne_nil (rooted : Bool) (s : List (List Char)) (h : GoodStack rooted s) :
    ∀ c ∈ s, c ≠ [] := by
  induction s with
  | nil => simp
  | cons e rest ih =>
    intro c hc
    simp only [List.mem_cons] at hc
    rcases hc with hc | hc
    · subst hc; exact goodStack_head_ne_nil rooted c rest h
    · exact ih h.2.2 c hc

theorem clean_append_component (p c : List Char) (hp : p ≠ []) (hc : '/' ∉ c)
    (h1 : c ≠ []) (h2 : c ≠ ['.']) (h3 : c ≠ ['.', '.']) :
    isRooted (p ++ '/' :: c) = isRooted p ∧
      cleanStack (p ++ '/' :: c) = c :: cleanStack p := by
  have hr := isRooted_append p ('/' :: c) hp
  refine ⟨hr, ?_⟩
  unfold cleanStack
  rw [hr, splitSlash_append_component p c hc, List.foldl_append]
  simp only [List.foldl_cons, List.foldl_nil]
  exact cleanStep_simple _ _ c h1 h2 h3

theorem joinSlash_head (x : List Char) (l : List (List Char)) (hx : x ≠ []) :
    (joinSlash (x :: l)).head? = x.head? := by
  cases x with
  | nil => exact absurd rfl hx
  | cons a as => cases l <;> simp [joinSlash]

/-- Cleaning the text of a stack the loop can have built gives that stack back. -/
theorem render_stack (rooted : Bool) (s : List (List Char)) (h : GoodStack rooted s) :
    isRooted (renderPath rooted s) = rooted ∧ cleanStack (renderPath rooted s) = s := by
  have hns : ∀ c ∈ s.reverse, '/' ∉ c := fun c hc =>
    goodStack_no_slash rooted s h c (by simpa using hc)
  cases rooted with
  | true =>
    have hr : isRooted (renderPath true s) = true := by simp [renderPath, isRooted]
    refine ⟨hr, ?_⟩
    unfold cleanStack
    rw [hr]
    by_cases hs : s = []
    · subst hs
      simp [renderPath, joinSlash, splitSlash, cleanStep]
    · have hsr : s.reverse ≠ [] := by simpa using hs
      have hsplit : splitSlash (renderPath true s) = [] :: s.reverse := by
        simp [renderPath, splitSlash, splitSlash_joinSlash s.reverse hsr hns]
      rw [hsplit]
      simp only [List.foldl_cons, cleanStep, true_or, if_true]
      exact foldl_cleanStep_reverse true s h
  | false =>
    by_cases hs : s = []
    · subst hs
      exact ⟨by decide, by decide⟩
    · have hsr : s.reverse ≠ [] := by simpa using hs
      have hrender : renderPath false s = joinSlash s.reverse := by simp [renderPath, hs]
      have hr : isRooted (renderPath false s) = false := by
        rw [hrender]
        cases hrev : s.reverse with
        | nil => exact absurd hrev hsr
        | cons x l =>
          have hx : x ∈ s := by
            have : x ∈ s.reverse := by rw [hrev]; simp
            simpa using this
          have hxne := goodStack_ne_nil false s h x hx
          have hxs := goodStack_no_slash false s h x hx
          unfold isRooted
          rw [joinSlash_head x l hxne]
          cases x with
          | nil => exact absurd rfl hxne
          | cons a as =>
            simp only [List.mem_cons, not_or] at hxs
            simpa using fun e => hxs.1 e.symm
      refine ⟨hr, ?_⟩
      unfold cleanStack
      rw [hr, hrender, splitSlash_joinSlash s.reverse hsr hns]
      exact foldl_cleanStep_reverse false s h

theorem renderPath_ne_nil (rooted : Bool) (s : List (List Char)) (h : GoodStack rooted s)
    (hs : s ≠ []) : renderPath rooted s ≠ [] := by
  cases s with
  | nil => exact absurd rfl hs
  | cons e rest =>
    have he := goodStack_head_ne_nil rooted e rest h
    rw [renderPath_cons]
    split_ifs <;> simp [he]

/-- Joining a path element that is a plain name to a cleaned path appends a separator
and the name. -/
theorem join_component (rooted : Bool) (s : List (List Char)) (c : List Char)
    (h : GoodStack rooted s) (hs : s ≠ []) (hc : '/' ∉ c)
    (h1 : c ≠ []) (h2 : c ≠ ['.']) (h3 : c ≠ ['.', '.']) :
    filepathJoin [⟨renderPath rooted s⟩, ⟨c⟩] = ⟨renderPath rooted s ++ '/' :: c⟩ := by
  have hne := renderPath_ne_nil rooted s h hs
  have hne' : (⟨renderPath rooted s⟩ : String) ≠ "" := by
    intro e
    exact hne (congrArg String.data e)
  obtain ⟨hr, hst⟩ := render_stack rooted s h
  obtain ⟨hr', hst'⟩ := clean_append_component (renderPath rooted s) c hne hc h1 h2 h3
  simp only [filepathJoin, hne', if_false, joinWithSlash, cleanChars, hr', hst', hr, hst]
  rw [renderPath_cons]
  simp [hs]

/-- The root `newDockerDriver` computes is the text of a stack with an element. -/
theorem root_shape (r : String) :
    ∃ rooted s, GoodStack rooted s ∧ s ≠ [] ∧
      filepathJoin [r, "volumes"] = ⟨renderPath rooted s⟩ := by
  by_cases hr : r = ""
  · subst hr
    exact ⟨false, ["volumes".data], ⟨by decide, by decide, trivial⟩, by decide, by decide⟩
  · have hp : r.data ≠ [] := by
      intro e
      apply hr
      exact String.ext e
    obtain ⟨h1, h2⟩ := clean_append_component r.data "volumes".data hp (by decide)
      (by decide) (by decide) (by decide)
    refine ⟨isRooted r.data, "volumes".data :: cleanStack r.data,
      ⟨by decide, cleanStep_simple _ _ _ (by decide) (by decide) (by decide),
        cleanStack_good r.data⟩, by simp, ?_⟩
    simp only [filepathJoin, hr, if_false, joinWithSlash, cleanChars]
    rw [h1, h2]

theorem hexDigit_plain (n : Nat) : hexDigit n ≠ '/' ∧ hexDigit n ≠ '.' := by
  unfold hexDigit
  split <;> decide

theorem sprintfHex_plain (bytes : List Nat) :
    ∀ ch ∈ (sprintfHex bytes).data, ch ≠ '/' ∧ ch ≠ '.' := by
  intro ch hch
  simp only [sprintfHex, List.mem_flatMap, List.mem_cons, List.mem_singleton,
    List.not_mem_nil, or_false] at hch
  obtain ⟨b, _, hb | hb⟩ := hch <;> (subst hb; exact hexDigit_plain _)

theorem md5Sum_ne_nil (msg : List Nat) : md5Sum msg ≠ [] := by
  simp [md5Sum, leBytes]

theorem sprintfHex_md5_component (msg : List Nat) :
    '/' ∉ (sprintfHex (md5Sum msg)).data ∧ (sprintfHex (md5Sum msg)).data ≠ [] ∧
      (sprintfHex (md5Sum msg)).data ≠ ['.'] ∧
      (sprintfHex (md5Sum msg)).data ≠ ['.', '.'] := by
  have hp := sprintfHex_plain (md5Sum msg)
  refine ⟨fun hm => (hp _ hm).1 rfl, ?_, ?_, ?_⟩
  · cases hb : md5Sum msg with
    | nil => exact absurd hb (md5Sum_ne_nil msg)
    | cons b bs => simp [sprintfHex]
  · intro e
    exact (hp '.' (by rw [e]; simp)).2 rfl
  · intro e
    exact (hp '.' (by rw [e]; simp)).2 rfl

/-- The mount point `Create` derives under the root `newDockerDriver` computes. -/
theorem mountpoint_join (r : String) (msg : List Nat) :
    filepathJoin [filepathJoin [r, "volumes"], sprintfHex (md5Sum msg)] =
      filepathJoin [r, "volumes"] ++ "/" ++ sprintfHex (md5Sum msg) := by
  obtain ⟨rooted, s, hg, hs, hroot⟩ := root_shape r
  obtain ⟨c1, c2, c3, c4⟩ := sprintfHex_md5_component msg
  rw [hroot]
  have hj := join_component rooted s (sprintfHex (md5Sum msg)).data hg hs c1 c2 c3 c4
  rw [hj]
  apply String.ext
  simp [String.data_append]

theorem cleanChars_ne_nil (p : List Char) : cleanChars p ≠ [] := by
  unfold cleanChars
  by_cases hs : cleanStack p = []
  · rw [hs]
    cases isRooted p <;> simp [renderPath]
  · exact renderPath_ne_nil _ _ (cleanStack_good p) hs

/-- The mount point `Create` derives is never the empty string. -/
theorem mountpoint_ne_empty (root : String) (msg : List Nat) :
    filepathJoin [root, sprintfHex (md5Sum msg)] ≠ "" := by
  have hmk : ∀ p : List Char, (⟨cleanChars p⟩ : String) ≠ "" := fun p e =>
    cleanChars_ne_nil p (congrArg String.data e)
  have hhex : sprintfHex (md5Sum msg) ≠ "" := fun e =>
    (sprintfHex_md5_component msg).2.1 (congrArg String.data e)
  by_cases hr : root = ""
  · simp only [filepathJoin, hr, if_true, hhex, if_false]
    exact hmk _
  · simp only [filepathJoin, hr, if_false]
    exact hmk _

/-- The record `Create` stores, for options whose `sshcmd` value `s` is not empty, on a
registry that is a map. -/
theorem create_record (env : Env) (name : String)
    (options : List (String × String)) (d : sshfsDriver) (s : String)
    (hmap : d.volumes ≠ none)
    (hnd : (options.map Prod.fst).Nodup) (hs : options.lookup "sshcmd" = some s)
    (hne : s ≠ "") :
    ∃ v, mapGet name (Create env name options d).driver.volumes = some (some v) ∧
      v.Sshcmd = s ∧
      v.Password = (options.lookup "password").getD "" ∧
      v.Port = (options.lookup "port").getD "" ∧
      v.connections = 0 ∧
      v.Mountpoint = filepathJoin [d.root, sprintfHex (md5Sum (utf8Bytes s))] ∧
      (∀ r, d.root = filepathJoin [r, "volumes"] →
        v.Mountpoint = d.root ++ "/" ++ sprintfHex (md5Sum (utf8Bytes s))) ∧
      v.Mountpoint ≠ "" ∧
      (v.Options : Multiset String) =
        ((options : Multiset (String × String)).filter
          (fun kv => kv.1 ∉ ["sshcmd", "password", "port"])).map
          (fun kv => if kv.2 = "" then kv.1 else kv.1 ++ "=" ++ kv.2) := by
  have hS : (parseOptions options).Sshcmd = s := by
    simpa [hs] using parseOptions_sshcmd options hnd
  have hne' : (parseOptions options).Sshcmd ≠ "" := by rw [hS]; exact hne
  obtain ⟨entries, hm⟩ := Option.ne_none_iff_exists'.1 hmap
  obtain ⟨hd, _⟩ := create_driver env name options d entries hm hne'
  refine ⟨{ parseOptions options with
      Mountpoint := filepathJoin
        [d.root, sprintfHex (md5Sum (utf8Bytes (parseOptions options).Sshcmd))] },
    by rw [hd]; simp [mapGet, lookup_mapSet_self], hS, parseOptions_password options hnd,
    parseOptions_port options hnd, parseOptions_connections options, ?_, ?_, ?_, ?_⟩
  · simp only [hS]
  · intro r hroot
    simp only [hS]
    rw [hroot]
    exact mountpoint_join r (utf8Bytes s)
  · exact mountpoint_ne_empty _ _
  · simp only [parseOptions_options options]
    simp [Multiset.filter_coe, Multiset.map_coe]

/-- The MD5 digests of the two sample remote targets, as `md5sum` prints them. -/
theorem sample_digests :
    sprintfHex (md5Sum (utf8Bytes "user@host:/path")) =
        "a8b4e28bdb275bc0429253e408d3b6ac" ∧
      sprintfHex (md5Sum (utf8Bytes "héllo €𝄞")) = "a8527e12b1a67246eca0be2f38506da4" := by
  set_option maxRecDepth 1000000 in decide

/-- C6 (the claim as worded fails). The driver `newDockerDriver("/mnt")` returns for a
state file holding `null` has the nil map as registry; `Create` on it with the sample
options (a non-empty `sshcmd`) panics at the assignment `d.volumes[r.Name] = v`: it
writes nothing and the registry maps the name to no record afterwards. -/
theorem create_on_nil_registry :
    newDockerDriver "/mnt" (.data .null) = .ok nilDriver ∧
      (sampleOptions.map Prod.fst).Nodup ∧
      sampleOptions.lookup "sshcmd" = some "user@host:/path" ∧
      (Create calmEnv "x" sampleOptions nilDriver).reply = .panicked ∧
      (Create calmEnv "x" sampleOptions nilDriver).effects = [] ∧
      mapGet "x" (Create calmEnv "x" sampleOptions nilDriver).driver.volumes = none ∧
      ¬ ∃ v, mapGet "x" (Create calmEnv "x" sampleOptions nilDriver).driver.volumes =
        some (some v) := by
  have hp : (parseOptions sampleOptions).Sshcmd ≠ "" := by decide
  have hc : Create calmEnv "x" sampleOptions nilDriver =
      { driver := nilDriver, effects := [], reply := .panicked } := by
    simp [Create, hp, nilDriver]
  refine ⟨by rfl, by decide, by decide, ?_, ?_, ?_, ?_⟩
  · rw [hc]
  · rw [hc]
  · rw [hc]; rfl
  · rw [hc]
    rintro ⟨v, hv⟩
    simp [nilDriver, mapGet] at hv

/-- C6 (amended). On a driver whose registry is a map (not the nil map), after `Create`
with options (in any order of visit) whose `sshcmd` value `s` is not empty, the registry
maps the name to a record with `Sshcmd = s`, `Password` and `Port` the values of
`password` and `port` (empty when absent), `connections = 0`, a non-empty `Mountpoint`
that is `filepath.Join` of the root and the lowercase hexadecimal MD5 of `s` (under the
root set by `newDockerDriver`: the root, a separator and the digest), and `Options`
holding, as a multiset, one entry per key other than `sshcmd`, `password` and `port`:
`key=value` when the value is not empty and `key` when it is. The options of the claim
(`sshcmd` `user@host:/path`, `password` `secret`, `port` `2222`, `compression` `yes`)
give the remote target `user@host:/path`, the port `2222`, `Options =
["compression=yes"]` and the digest `a8b4e28bdb275bc0429253e408d3b6ac`; the remote
target `héllo €𝄞` gives the digest `a8527e12b1a67246eca0be2f38506da4`. -/
theorem create_builds_record (env : Env) (name : String)
    (options : List (String × String)) (d : sshfsDriver) (s : String)
    (hmap : d.volumes ≠ none)
    (hnd : (options.map Prod.fst).Nodup) (hs : options.lookup "sshcmd" = some s)
    (hne : s ≠ "") :
    (∃ v, mapGet name (Create env name options d).driver.volumes = some (some v) ∧
      v.Sshcmd = s ∧
      v.Password = (options.lookup "password").getD "" ∧
      v.Port = (options.lookup "port").getD "" ∧
      v.connections = 0 ∧
      v.Mountpoint = filepathJoin [d.root, sprintfHex (md5Sum (utf8Bytes s))] ∧
      (∀ r, d.root = filepathJoin [r, "volumes"] →
        v.Mountpoint = d.root ++ "/" ++ sprintfHex (md5Sum (utf8Bytes s))) ∧
      v.Mountpoint ≠ "" ∧
      (v.Options : Multiset String) =
        ((options : Multiset (String × String)).filter
          (fun kv => kv.1 ∉ ["sshcmd", "password", "port"])).map
          (fun kv => if kv.2 = "" then kv.1 else kv.1 ++ "=" ++ kv.2)) ∧
    (∃ v, mapGet name (Create env name sampleOptions d).driver.volumes = some (some v) ∧
      v.Sshcmd = "user@host:/path" ∧ v.Password = "secret" ∧ v.Port = "2222" ∧
      v.connections = 0 ∧ v.Options = ["compression=yes"] ∧ v.Mountpoint ≠ "" ∧
      v.Mountpoint = filepathJoin [d.root, "a8b4e28bdb275bc0429253e408d3b6ac"]) ∧
    (∃ v, mapGet name (Create env name wideOptions d).driver.volumes = some (some v) ∧
      v.Sshcmd = "héllo €𝄞" ∧ v.Options = [] ∧
      v.Mountpoint = filepathJoin [d.root, "a8527e12b1a67246eca0be2f38506da4"]) := by
  obtain ⟨hd1, hd2⟩ := sample_digests
  refine ⟨create_record env name options d s hmap hnd hs hne, ?_, ?_⟩
  · obtain ⟨v, h1, h2, h3, h4, h5, h6, _, h7, h8⟩ :=
      create_record env name sampleOptions d "user@host:/path" hmap (by decide)
        (by decide) (by decide)
    refine ⟨v, h1, h2, ?_, ?_, h5, ?_, h7, ?_⟩
    · rw [h3]; decide
    · rw [h4]; decide
    · have hrhs : ((sampleOptions : Multiset (String × String)).filter
          (fun kv => kv.1 ∉ ["sshcmd", "password", "port"])).map
          (fun kv => if kv.2 = "" then kv.1 else kv.1 ++ "=" ++ kv.2) =
          ((["compression=yes"] : List String) : Multiset String) := by
        decide
      rw [hrhs] at h8
      exact List.perm_singleton.1 (Multiset.coe_eq_coe.1 h8)
    · rw [h6, hd1]
  · obtain ⟨v, h1, h2, _, _, _, h6, _, _, h8⟩ :=
      create_record env name wideOptions d "héllo €𝄞" hmap (by decide)
        (by decide) (by decide)
    refine ⟨v, h1, h2, ?_, ?_⟩
    · have hrhs : ((wideOptions : Multiset (String × String)).filter
          (fun kv => kv.1 ∉ ["sshcmd", "password", "port"])).map
          (fun kv => if kv.2 = "" then kv.1 else kv.1 ++ "=" ++ kv.2) =
          (([] : List String) : Multiset String) := by
        decide
      rw [hrhs] at h8
      exact List.perm_nil.1 (Multiset.coe_eq_coe.1 h8)
    · rw [h6, hd2]

theorem create_builds_record_witness :
    emptyDriver.volumes ≠ none ∧
      (sampleOptions.map Prod.fst).Nodup ∧
      sampleOptions.lookup "sshcmd" = some "user@host:/path" ∧
      "user@host:/path" ≠ "" ∧
      (∃ v, mapGet "x" (Create calmEnv "x" sampleOptions emptyDriver).driver.volumes =
          some (some v) ∧
        v.Sshcmd = "user@host:/path" ∧ v.Password = "secret" ∧ v.Port = "2222" ∧
        v.connections = 0 ∧ v.Options = ["compression=yes"] ∧
        v.Mountpoint = "/mnt/volumes/a8b4e28bdb275bc0429253e408d3b6ac") ∧
      (∃ v, mapGet "x" (Create calmEnv "x" wideOptions emptyDriver).driver.volumes =
          some (some v) ∧
        v.Sshcmd = "héllo €𝄞" ∧
        v.Mountpoint = "/mnt/volumes/a8527e12b1a67246eca0be2f38506da4") := by
  have h := create_builds_record calmEnv "x" sampleOptions emptyDriver "user@host:/path"
    (by decide) (by decide) (by decide) (by decide)
  refine ⟨by decide, by decide, by decide, by decide, ?_, ?_⟩
  · obtain ⟨v, h1, h2, h3, h4, h5, h6, _, h8⟩ := h.2.1
    exact ⟨v, h1, h2, h3, h4, h5, h6, by rw [h8]; decide⟩
  · obtain ⟨v, h1, h2, _, h4⟩ := h.2.2
    exact ⟨v, h1, h2, by rw [h4]; decide⟩

theorem save_then_reload_witness :
    ∃ d', newDockerDriver "/mnt" (.data (marshalVolumes (sampleDriver 2).volumes)) = .ok d' ∧
      ∃ v', mapGet "x" d'.volumes = some (some v') ∧
        v'.Sshcmd = (sampleVolume 2).Sshcmd ∧ v'.Mountpoint = (sampleVolume 2).Mountpoint ∧
        v'.connections = 0 := by
  obtain ⟨_, d', h1, _, _, h4, h5⟩ := save_then_reload calmEnv "/mnt" (sampleDriver 2)
  obtain ⟨v', hv', hs, hm, _⟩ := h4 "x" (sampleVolume 2) (by decide)
  exact ⟨d', h1, v', hv', hs, hm, h5 "x" v' hv'⟩

/-! ## Checks of the library models -/

/-- The MD5 test suite of RFC 1321. -/
theorem md5Sum_test_suite :
    sprintfHex (md5Sum (utf8Bytes "")) = "d41d8cd98f00b204e9800998ecf8427e" ∧
    sprintfHex (md5Sum (utf8Bytes "a")) = "0cc175b9c0f1b6a831c399e269772661" ∧
    sprintfHex (md5Sum (utf8Bytes "abc")) = "900150983cd24fb0d6963f7d28e17f72" ∧
    sprintfHex (md5Sum (utf8Bytes "message digest")) =
      "f96b697d7cb7938d525a2f31aaf161d0" ∧
    sprintfHex (md5Sum (utf8Bytes "abcdefghijklmnopqrstuvwxyz")) =
      "c3fcd3d76192e4007dfb496cca67e13b" ∧
    sprintfHex (md5Sum (utf8Bytes
      "ABCDEFGHIJKLMNOPQRSTUVWXYZabcdefghijklmnopqrstuvwxyz0123456789")) =
      "d174ab98d277d9f5a5611c2c9f419d9f" ∧
    sprintfHex (md5Sum (utf8Bytes
      "12345678901234567890123456789012345678901234567890123456789012345678901234567890")) =
      "57edf4a22be3c955ac49da2e2107b67a" := by
  set_option maxRecDepth 1000000 in decide

/-- The table of the test `TestClean` of `path/filepath`. -/
theorem filepathClean_table :
    ∀ row ∈ cleanTable, filepathClean row.1 = row.2 := by
  set_option maxRecDepth 100000 in decide

/-- The roots `main` passes on: `newDockerDriver("/mnt")` with no state file. -/
theorem newDockerDriver_main : newDockerDriver "/mnt" .notExist = .ok emptyDriver := by
  rfl

/-- On the driver of `main` the sample options give the sample record. -/
theorem create_sample :
    (Create calmEnv "x" sampleOptions emptyDriver).driver = sampleDriver 0 ∧
      (Create calmEnv "x" sampleOptions emptyDriver).reply = .ok () := by
  set_option maxRecDepth 1000000 in decide

end Sshfs
